import Mathlib

/-
Verification development for the OpenMachineCore workflow core.

Shallow embedding of:
  - internal/workflow/definition (workflow and step model, call frames,
    BuildHierarchicalStepID),
  - internal/workflow/executor/executor.go (step executor),
  - internal/workflow/engine/engine.go (execution tracker and the
    asynchronous runner, rendered as a pure trace-producing function),
  - internal/workflow/streaming (event streamer),
  - the workflow validator (package workflow),
  - the machine controller (package machine).

Modelling conventions:
  - JSON values are the inductive JValue; JSON numbers are modelled by
    their integer part (Go decodes them as float64, the executor then
    truncates to an integer before use).
  - Go maps used as ordered-irrelevant records are association lists.
  - External collaborators (storage, modbus device clients, context
    cancellation) are oracle functions passed as parameters.
  - Goroutine scheduling is not modelled; the runner of one execution is
    rendered as a sequential function from its inputs and oracles to the
    trace of persisted records, published events and websocket messages,
    which is exactly the data the claims speak about.
  - uint16 conversion of an integer is reduction modulo 2^16 (the gc
    toolchain converts float64 to uint16 through int64 truncation).
-/

namespace OMC

/-- JSON-like values as decoded from the workflow definition and
threaded through step inputs and outputs (Go: map[string]any, []any). -/
inductive JValue where
  | null
  | bool (b : Bool)
  | num (n : Int)
  | str (s : String)
  | arr (xs : List JValue)
  | obj (fields : List (String × JValue))
  deriving Repr

/-- A JSON object: association list of fields (Go: map[string]any). -/
def JObj := List (String × JValue)
  deriving Repr

/-- Field lookup in a JSON object. -/
def lookupJ : JObj → String → Option JValue
  | [], _ => none
  | (k, v) :: rest, key => if k = key then some v else lookupJ rest key

/-- Setting a field of a JSON object (Go: m[k] = v): replaces the first
occurrence of the key, appends when absent. -/
def setJ : JObj → String → JValue → JObj
  | [], key, v => [(key, v)]
  | (k, w) :: rest, key, v =>
    if k = key then (k, v) :: rest else (k, w) :: setJ rest key v

/-- Keys of a JSON object, in order. -/
def keysJ (o : JObj) : List String := o.map Prod.fst

namespace Definition

/-- Step kinds (definition.StepType). -/
inductive StepType where
  | device
  | workflow
  | wait
  | other (s : String)
  deriving Repr, DecidableEq

/-- A workflow step (definition.Step). The timeout is in nanoseconds. -/
structure Step where
  number : String := ""
  name : String := ""
  type : StepType
  deviceID : String := ""
  operation : String := ""
  parameters : Option JObj := none
  workflowID : String := ""
  timeout : Int := 0
  deriving Repr

/-- Loop configuration (definition.LoopConfig). -/
structure LoopConfig where
  enabled : Bool
  maxCount : Int := 0
  onError : String := ""
  deriving Repr, DecidableEq

/-- A parsed workflow definition (definition.Workflow). -/
structure Workflow where
  id : String := ""
  name : String := ""
  programName : String := ""
  version : String := ""
  steps : List Step := []
  loop : Option LoopConfig := none
  deriving Repr

/-- One level of the execution call stack (definition.CallFrame). -/
structure CallFrame where
  workflowID : String
  programName : String
  stepNumber : String
  deriving Repr

/-- Joining rendered parts with a colon, first part bare
(the loop at the end of BuildHierarchicalStepID). -/
def joinColon : List String → String
  | [] => ""
  | p :: rest => rest.foldl (fun acc part => acc ++ ":" ++ part) p

/-- Full hierarchical step id from a call stack
(definition.BuildHierarchicalStepID); empty stack renders as "". -/
def BuildHierarchicalStepID (callStack : List CallFrame) : String :=
  match callStack with
  | [] => ""
  | _ =>
    joinColon (callStack.flatMap (fun frame => [frame.programName, "S" ++ frame.stepNumber]))

end Definition

namespace Executor

open Definition

/-- Conversion of an integer-valued JSON number to uint16: the gc
toolchain truncates float64 through int64, keeping the low 16 bits,
which on the integer part is reduction modulo 2^16. -/
def toUint16 (x : Int) : Nat := (x % 65536).toNat

/-- Oracle view of the per-device modbus client and the logical-name
wrappers the executor calls (modbus.Device and modbus.Client). -/
structure DevClient where
  readHoldingRegisters : Nat → Nat → Except String (List Nat)
  readInputRegisters : Nat → Nat → Except String (List Nat)
  writeSingleRegister : Nat → Nat → Except String Unit
  readRegister : String → Except String JValue
  writeRegister : String → JValue → Except String Unit
  readLogical : String → Except String JValue
  writeLogical : String → JValue → Except String Unit

/-- A device as handed out by the device manager. -/
structure Device where
  unitID : Nat := 0
  client : DevClient

/-- The read operation (executor.executeRead): requires register_type
string and numeric address, optional numeric count (default 1); address
and count are truncated to uint16 before the register read. -/
def executeRead (device : Device) (params : JObj) : Except String JObj :=
  match lookupJ params "register_type" with
  | some (.str registerType) =>
    match lookupJ params "address" with
    | some (.num address) =>
      let count : Nat :=
        match lookupJ params "count" with
        | some (.num c) => toUint16 c
        | _ => 1
      match registerType with
      | "holding" =>
        (device.client.readHoldingRegisters (toUint16 address) count).map
          (fun values => [("values", JValue.arr (values.map (fun n => JValue.num (Int.ofNat n))))])
      | "input" =>
        (device.client.readInputRegisters (toUint16 address) count).map
          (fun values => [("values", JValue.arr (values.map (fun n => JValue.num (Int.ofNat n))))])
      | _ =>
        .error ("invalid register_type: " ++ registerType ++ " (only holding and input supported)")
    | _ => .error "missing or invalid address parameter"
  | _ => .error "missing or invalid register_type parameter"

/-- The write operation (executor.executeWrite): requires register_type
"holding", numeric address and value; address and value are truncated
to uint16 before the single-register write, with no range check. -/
def executeWrite (device : Device) (params : JObj) : Except String JObj :=
  match lookupJ params "register_type" with
  | some (.str registerType) =>
    match lookupJ params "address" with
    | some (.num address) =>
      match lookupJ params "value" with
      | some (.num value) =>
        if registerType ≠ "holding" then
          .error ("invalid register_type for write: " ++ registerType ++ " (only holding supported)")
        else
          (device.client.writeSingleRegister (toUint16 address) (toUint16 value)).map
            (fun _ =>
              [("success", JValue.bool true),
               ("address", JValue.num (Int.ofNat (toUint16 address))),
               ("value", JValue.num (Int.ofNat (toUint16 value)))])
      | _ => .error "missing or invalid value parameter"
    | _ => .error "missing or invalid address parameter"
  | _ => .error "missing or invalid register_type parameter"

/-- The read_register operation (executor.executeReadRegister). -/
def executeReadRegister (device : Device) (params : JObj) : Except String JObj :=
  match lookupJ params "register" with
  | some (.str register) =>
    (device.client.readRegister register).map
      (fun value => [("register", JValue.str register), ("value", value)])
  | _ => .error "missing or invalid register parameter"

/-- The write_register operation (executor.executeWriteRegister). -/
def executeWriteRegister (device : Device) (params : JObj) : Except String JObj :=
  match lookupJ params "register" with
  | some (.str register) =>
    match lookupJ params "value" with
    | some value =>
      (device.client.writeRegister register value).map
        (fun _ =>
          [("register", JValue.str register), ("value", value), ("success", JValue.bool true)])
    | none => .error "missing value parameter"
  | _ => .error "missing or invalid register parameter"

/-- The read_logical operation (executor.executeReadLogical). -/
def executeReadLogical (device : Device) (params : JObj) : Except String JObj :=
  match lookupJ params "register" with
  | some (.str register) =>
    (device.client.readLogical register).map
      (fun value => [("register", JValue.str register), ("value", value)])
  | _ => .error "missing or invalid register parameter"

/-- The write_logical operation (executor.executeWriteLogical). -/
def executeWriteLogical (device : Device) (params : JObj) : Except String JObj :=
  match lookupJ params "register" with
  | some (.str register) =>
    match lookupJ params "value" with
    | some value =>
      (device.client.writeLogical register value).map
        (fun _ =>
          [("register", JValue.str register), ("value", value), ("success", JValue.bool true)])
    | none => .error "missing value parameter"
  | _ => .error "missing or invalid register parameter"

/-- Dispatch on the operation name (executor.executeOperation). -/
def executeOperation (device : Device) (operation : String) (params : JObj) :
    Except String JObj :=
  match operation with
  | "read" => executeRead device params
  | "write" => executeWrite device params
  | "read_logical" => executeReadLogical device params
  | "write_logical" => executeWriteLogical device params
  | "read_register" => executeReadRegister device params
  | "write_register" => executeWriteRegister device params
  | _ => .error ("unsupported operation: " ++ operation)

/-- Parameter merge of executor.executeDeviceStep: step parameters
first, then the input entries override on key collision. -/
def mergeParams (stepParams : Option JObj) (input : JObj) : JObj :=
  input.foldl (fun acc kv => setJ acc kv.1 kv.2) (stepParams.getD [])

/-- A device step (executor.executeDeviceStep): look the device up by
name, merge parameters, run the operation. The per-step timeout scope
is real time and is not modelled. -/
def executeDeviceStep (deviceManager : String → Option Device) (step : Step)
    (input : JObj) : Except String JObj :=
  match deviceManager step.deviceID with
  | none => .error ("device not found: " ++ step.deviceID)
  | some device =>
    match executeOperation device step.operation (mergeParams step.parameters input) with
    | .error e => .error ("device operation failed: " ++ e)
    | .ok result => .ok result

/-- A wait step (executor.executeWaitStep): returns the input unchanged
when the timer fires, fails when the ambient context is already
cancelled. The wall-clock sleep itself is not modelled. -/
def executeWaitStep (ctxDone : Bool) (input : JObj) : Except String JObj :=
  if ctxDone then .error "context canceled" else .ok input

/-- Rendering an index for sub-workflow error messages. -/
def natStr (n : Nat) : String := toString n

/-- The sequential loop of executor.executeWorkflowStep: each sub-step
output is threaded into the next sub-step input; a sub-step failure is
wrapped with the sub-step index and name. The recursive dispatcher is
passed as the continuation execF. -/
def executeSubSteps (execF : Step → JObj → Except String JObj) :
    List Step → Nat → JObj → Except String JObj
  | [], _, stepInput => .ok stepInput
  | subStep :: rest, i, stepInput =>
    match execF subStep stepInput with
    | .error e =>
      .error ("sub-workflow step " ++ natStr i ++ " (" ++ subStep.name ++ ") failed: " ++ e)
    | .ok result =>
      executeSubSteps execF rest (i + 1) result

/-- The step executor dispatcher (executor.Execute). Sub-workflow
recursion is bounded by fuel, one unit per nesting level, because a
cyclic reference makes the Go original recurse without bound; fuel
exhaustion is rendered as an error. The storage oracle combines
LoadWorkflow and ParseWorkflow. -/
def Execute : Nat → (String → Option Workflow) → (String → Option Device) →
    Bool → Step → JObj → Except String JObj
  | fuel, storage, deviceManager, ctxDone, step, input =>
    match step.type with
    | .device => executeDeviceStep deviceManager step input
    | .workflow =>
      match fuel with
      | 0 => .error "sub-workflow recursion budget exhausted"
      | fuel2 + 1 =>
        match storage step.workflowID with
        | none => .error "failed to load sub-workflow"
        | some subWorkflow =>
          executeSubSteps (Execute fuel2 storage deviceManager ctxDone)
            subWorkflow.steps 0 input
    | .wait => executeWaitStep ctxDone input
    | .other s => .error ("unsupported step type: " ++ s)
end Executor

namespace Engine

open Definition Executor

/-- Persisted lifecycle states (storage.Status constants). -/
inductive Status where
  | pending
  | running
  | success
  | failed
  | cancelled
  deriving Repr, DecidableEq

/-- A persisted execution step row (storage.ExecutionStep), collapsed
to its final state after the create and the later update of the same
row by engine.executeStep. -/
structure StepRecord where
  stepIndex : Nat
  stepName : String
  hierarchicalStepID : String
  depth : Nat
  status : Status
  input : JObj
  output : Option JObj := none
  error : String := ""
  deriving Repr

/-- The persisted execution row (storage.WorkflowExecution) as the
runner mutates it. completedAt is rendered as a flag because wall-clock
time is not modelled. -/
structure ExecRecord where
  workflowID : String
  status : Status
  input : JObj
  output : Option JObj := none
  error : String := ""
  currentStepID : String := ""
  callStack : List CallFrame := []
  completedAt : Bool := false
  deriving Repr

/-- A durable execution event (storage.ExecutionEvent) as written by
engine.publishEvent: stored and handed to the streamer broadcast. -/
structure Event where
  eventType : String
  payload : JObj
  deriving Repr

/-- A websocket hub broadcast (websocket.NewWorkflowMessage). -/
structure WsMsg where
  msgType : String
  stepName : String
  status : String
  message : String
  deriving Repr

/-- Trace state threaded through the runner: the tracker call stack,
the execution row, the persisted step rows (in creation order), the
published events (in publish order) and the websocket broadcasts. -/
structure RunState where
  tracker : List CallFrame
  exec : ExecRecord
  steps : List StepRecord := []
  events : List Event := []
  ws : List WsMsg := []
  deriving Repr

/-- ExecutionTracker.SetCurrentStep: overwrite the step number of the
top (last) frame; no-op on an empty stack. -/
def setCurrentStep : List CallFrame → String → List CallFrame
  | [], _ => []
  | [frame], n => [{ frame with stepNumber := n }]
  | frame :: rest, n => frame :: setCurrentStep rest n

/-- The step.started event payload (engine.executeStep): step_index,
step_name, hierarchical_step_id, depth. -/
def startedEvent (index : Nat) (stepName hid : String) (depth : Nat) : Event :=
  { eventType := "step.started",
    payload :=
      [("step_index", JValue.num (Int.ofNat index)),
       ("step_name", JValue.str stepName),
       ("hierarchical_step_id", JValue.str hid),
       ("depth", JValue.num (Int.ofNat depth))] }

/-- The step.failed event payload (engine.executeStep): step_index,
step_name, hierarchical_step_id, error — no depth field. -/
def failedEvent (index : Nat) (stepName hid e : String) : Event :=
  { eventType := "step.failed",
    payload :=
      [("step_index", JValue.num (Int.ofNat index)),
       ("step_name", JValue.str stepName),
       ("hierarchical_step_id", JValue.str hid),
       ("error", JValue.str e)] }

/-- The step.completed event payload (engine.executeStep): step_index,
step_name, hierarchical_step_id, output — no depth field. -/
def completedEvent (index : Nat) (stepName hid : String) (output : JObj) : Event :=
  { eventType := "step.completed",
    payload :=
      [("step_index", JValue.num (Int.ofNat index)),
       ("step_name", JValue.str stepName),
       ("hierarchical_step_id", JValue.str hid),
       ("output", JValue.obj output)] }

/-- The websocket broadcast before a step runs. -/
def wsExecuting (step : Step) : WsMsg :=
  { msgType := "workflow_step", stepName := step.name,
    status := "running", message := "Executing step: " ++ step.name }

/-- The websocket broadcast after a step completed. -/
def wsStepDone (step : Step) : WsMsg :=
  { msgType := "workflow_step", stepName := step.name,
    status := "completed", message := "Step completed: " ++ step.name }

/-- The websocket broadcast on a failed run. -/
def wsRunFailed (step : Step) (e : String) : WsMsg :=
  { msgType := "workflow_failed", stepName := step.name,
    status := "failed", message := "Step failed: " ++ e }

/-- The websocket broadcast on a cancelled run. -/
def wsRunCancelled (step : Step) : WsMsg :=
  { msgType := "workflow_cancelled", stepName := step.name,
    status := "cancelled", message := "Workflow execution cancelled" }

/-- The websocket broadcast on a successful run. -/
def wsRunCompleted : WsMsg :=
  { msgType := "workflow_completed", stepName := "",
    status := "success", message := "Workflow execution completed successfully" }

/-- The websocket broadcast when the runner enters the running state. -/
def wsRunStarted : WsMsg :=
  { msgType := "workflow_step", stepName := "",
    status := "running", message := "Workflow execution started" }

/-- Whether a websocket message announces a terminal outcome of the
run (completed, failed, or cancelled). -/
def isTerminalWs (m : WsMsg) : Bool :=
  m.msgType == "workflow_completed" || m.msgType == "workflow_failed" ||
    m.msgType == "workflow_cancelled"

/-- Engine.executeStep: update the tracker current step, create the
step row with the hierarchical id and depth from the tracker, publish
step.started (payload with step_index, step_name, hierarchical_step_id
and depth), invoke the step executor, then update the row and publish
step.failed (payload with error, without depth) or step.completed
(payload with output, without depth). -/
def engineExecuteStep (fuel : Nat) (storage : String → Option Workflow)
    (deviceManager : String → Option Device) (ctxDone : Bool)
    (st : RunState) (index : Nat) (step : Step) (input : JObj) :
    RunState × Except String JObj :=
  let tracker := setCurrentStep st.tracker step.number
  let hierarchicalID := BuildHierarchicalStepID tracker
  let depth := tracker.length
  match Execute fuel storage deviceManager ctxDone step input with
  | .error e =>
    let record : StepRecord :=
      { stepIndex := index, stepName := step.name,
        hierarchicalStepID := hierarchicalID, depth := depth,
        status := .failed, input := input, error := e }
    ({ st with tracker := tracker, steps := st.steps ++ [record],
               events := st.events ++
                 [startedEvent index step.name hierarchicalID depth,
                  failedEvent index step.name hierarchicalID e] },
     .error e)
  | .ok output =>
    let record : StepRecord :=
      { stepIndex := index, stepName := step.name,
        hierarchicalStepID := hierarchicalID, depth := depth,
        status := .success, input := input, output := some output }
    ({ st with tracker := tracker, steps := st.steps ++ [record],
               events := st.events ++
                 [startedEvent index step.name hierarchicalID depth,
                  completedEvent index step.name hierarchicalID output] },
     .ok output)

/-- Copying the tracker snapshot onto the execution row, as the runner
does after each step and on every exit path. -/
def syncTracker (st : RunState) : RunState :=
  { st with exec :=
      { st.exec with currentStepID := BuildHierarchicalStepID st.tracker,
                     callStack := st.tracker } }

/-- The step loop of Engine.runExecution. cancelAt i is the oracle for
whether the cancellable context is already done when iteration i checks
it; ctxInStep i is the context state the executor itself observes
during step i. Each step is invoked with the ORIGINAL execution input:
the source discards the step output of executeStep, and never writes
the execution output or error fields. -/
def runSteps (fuel : Nat) (storage : String → Option Workflow)
    (deviceManager : String → Option Device)
    (cancelAt : Nat → Bool) (ctxInStep : Nat → Bool)
    (input : JObj) : List Step → Nat → RunState → RunState
  | [], _, st =>
    let st := syncTracker { st with exec := { st.exec with status := .success, completedAt := true } }
    { st with ws := st.ws ++ [wsRunCompleted] }
  | step :: rest, i, st =>
    if cancelAt i then
      let st := syncTracker { st with exec := { st.exec with status := .cancelled, completedAt := true } }
      { st with ws := st.ws ++ [wsRunCancelled step] }
    else
      let st := { st with ws := st.ws ++ [wsExecuting step] }
      let (st, result) :=
        engineExecuteStep fuel storage deviceManager (ctxInStep i) st i step input
      let st := syncTracker st
      match result with
      | .error e =>
        let st := { st with exec := { st.exec with status := .failed, completedAt := true } }
        { st with ws := st.ws ++ [wsRunFailed step e] }
      | .ok _ =>
        let st := { st with ws := st.ws ++ [wsStepDone step] }
        runSteps fuel storage deviceManager cancelAt ctxInStep input rest (i + 1) st

/-- Engine.runExecution for one execution, starting from the tracker
seeded by ExecuteWorkflow with the single root frame
(workflow id, program name, "0"): set the row to running, broadcast the
start message, then drive the step loop. The source functions
handleStepError and the lower-case cancelExecution, which would publish
execution.failed and execution.cancelled, are never called by the
engine and are therefore not part of this trace. -/
def runExecution (fuel : Nat) (storage : String → Option Workflow)
    (deviceManager : String → Option Device)
    (cancelAt : Nat → Bool) (ctxInStep : Nat → Bool)
    (wf : Workflow) (input : JObj) : RunState :=
  let tracker : List CallFrame :=
    [{ workflowID := wf.id, programName := wf.programName, stepNumber := "0" }]
  let exec0 : ExecRecord :=
    { workflowID := wf.id, status := .running, input := input }
  let st0 : RunState :=
    { tracker := tracker, exec := exec0, ws := [wsRunStarted] }
  runSteps fuel storage deviceManager cancelAt ctxInStep input wf.steps 0 st0

end Engine

namespace Streaming

/-- A subscriber channel (Go: chan *storage.ExecutionEvent with a
buffer), rendered by its capacity and current buffer content. -/
structure Chan where
  capacity : Nat
  buffer : List Engine.Event := []
  deriving Repr

/-- The event streamer (streaming.EventStreamer): subscriber channels
keyed by execution id. -/
structure EventStreamer where
  subscribers : String → List Chan

/-- EventStreamer.Subscribe: make a channel of capacity 100, register
it against the execution id, hand the receive side back. -/
def Subscribe (s : EventStreamer) (executionID : String) : EventStreamer × Chan :=
  let ch : Chan := { capacity := 100 }
  ({ subscribers := fun k =>
      if k = executionID then s.subscribers k ++ [ch] else s.subscribers k },
   ch)

/-- The non-blocking send (select with a default branch): append when
the buffer has free space, otherwise drop the event for this channel. -/
def trySend (ch : Chan) (event : Engine.Event) : Chan :=
  if ch.buffer.length < ch.capacity then { ch with buffer := ch.buffer ++ [event] } else ch

/-- The loop body of EventStreamer.Broadcast over the subscriber list
of one execution id. -/
def broadcastLoop : List Chan → Engine.Event → List Chan
  | [], _ => []
  | ch :: rest, event => trySend ch event :: broadcastLoop rest event

/-- EventStreamer.Broadcast: deliver to each current subscriber of the
execution id non-blockingly; subscribers of other ids are untouched.
The function is total: broadcast never fails. -/
def Broadcast (s : EventStreamer) (executionID : String) (event : Engine.Event) :
    EventStreamer :=
  { subscribers := fun k =>
      if k = executionID then broadcastLoop (s.subscribers k) event else s.subscribers k }

end Streaming

namespace Machine

/-- Machine states (machine.State). -/
inductive MState where
  | stopped
  | homing
  | ready
  | running
  | stopping
  | error
  | emergency
  deriving Repr, DecidableEq

/-- The Go string of a machine state, used in rejection messages. -/
def MState.render : MState → String
  | .stopped => "stopped"
  | .homing => "homing"
  | .ready => "ready"
  | .running => "running"
  | .stopping => "stopping"
  | .error => "error"
  | .emergency => "emergency"

/-- Operator commands (machine.Command). -/
inductive Command where
  | home
  | start
  | stop
  | reset
  deriving Repr, DecidableEq

/-- Mutable controller fields (machine.Controller): uuid.Nil is
rendered as the empty string. -/
structure CtrlState where
  currentState : MState
  currentExecID : String := ""
  productionCycles : Int := 0
  errorMessage : String := ""
  deriving Repr, DecidableEq

/-- The configured workflow ids (Controller.SetWorkflows). -/
structure CtrlConfig where
  stopWorkflowID : String := ""
  homeWorkflowID : String := ""
  productionWorkflowID : String := ""

/-- Oracle for Engine.ExecuteWorkflow as seen by the controller: the
workflow id goes in, an execution id or an error comes back. The
CancelExecution result is ignored by the caller and needs no oracle. -/
structure EngineOracle where
  executeWorkflow : String → Except String String

/-- Controller.setState: overwrite state and error message (the
websocket broadcast it also performs carries no controller state and is
not modelled). -/
def setState (c : CtrlState) (state : MState) (errorMsg : String) : CtrlState :=
  { c with currentState := state, errorMessage := errorMsg }

/-- Controller.executeHome: only from stopped; move to homing, start
the home workflow, record the execution id; an engine error moves to
error state. The background monitor goroutine runs after the command
returns and is outside this transition. -/
def executeHome (cfg : CtrlConfig) (eng : EngineOracle) (c : CtrlState) :
    Except String Unit × CtrlState :=
  if c.currentState ≠ .stopped then
    (.error ("cannot home: machine must be stopped (current: " ++ c.currentState.render ++ ")"), c)
  else
    let c := { c with currentState := .homing }
    match eng.executeWorkflow cfg.homeWorkflowID with
    | .error e => (.error e, setState c .error e)
    | .ok execID => (.ok (), { c with currentExecID := execID })

/-- Controller.executeStart: only from ready; move to running, zero the
production cycle counter, start the production workflow. -/
def executeStart (cfg : CtrlConfig) (eng : EngineOracle) (c : CtrlState) :
    Except String Unit × CtrlState :=
  if c.currentState ≠ .ready then
    (.error ("cannot start: machine must be ready (current: " ++ c.currentState.render ++ ")"), c)
  else
    let c := { c with currentState := .running, productionCycles := 0 }
    match eng.executeWorkflow cfg.productionWorkflowID with
    | .error e => (.error e, setState c .error e)
    | .ok execID => (.ok (), { c with currentExecID := execID })

/-- Controller.executeStop: only from running; cancel the current
production execution (result ignored), move to stopping, start the stop
workflow. -/
def executeStop (cfg : CtrlConfig) (eng : EngineOracle) (c : CtrlState) :
    Except String Unit × CtrlState :=
  if c.currentState ≠ .running then
    (.error ("cannot stop: machine not running (current: " ++ c.currentState.render ++ ")"), c)
  else
    let c := { c with currentState := .stopping }
    match eng.executeWorkflow cfg.stopWorkflowID with
    | .error e => (.error e, setState c .error e)
    | .ok execID => (.ok (), { c with currentExecID := execID })

/-- Controller.executeReset: only from error or emergency; clear the
error message, drop the current execution id, move to stopped. -/
def executeReset (c : CtrlState) : Except String Unit × CtrlState :=
  if c.currentState ≠ .error ∧ c.currentState ≠ .emergency then
    (.error ("cannot reset: no error state (current: " ++ c.currentState.render ++ ")"), c)
  else
    (.ok (), { c with currentState := .stopped, errorMessage := "", currentExecID := "" })

/-- Controller.ExecuteCommand: dispatch on the command. -/
def ExecuteCommand (cfg : CtrlConfig) (eng : EngineOracle) (c : CtrlState) :
    Command → Except String Unit × CtrlState
  | .home => executeHome cfg eng c
  | .start => executeStart cfg eng c
  | .stop => executeStop cfg eng c
  | .reset => executeReset c

end Machine

namespace Validator

open Definition

/-- Byte-lexicographic strict comparison on character lists (Go string
less; identical to the Go byte order on the ASCII data the validator
compares). -/
def strLtL : List Char → List Char → Bool
  | [], [] => false
  | [], _ :: _ => true
  | _ :: _, [] => false
  | a :: as, b :: bs =>
    if a.toNat < b.toNat then true
    else if b.toNat < a.toNat then false
    else strLtL as bs

/-- Strict lexicographic order on strings (Go a < b). -/
def strLt (a b : String) : Bool := strLtL a.data b.data

/-- ASCII whitespace for the TrimSpace rendering. -/
def isSpaceChar (c : Char) : Bool :=
  c = ' ' ∨ c = '\t' ∨ c = '\n' ∨ c = '\r'

/-- Go strings.TrimSpace, rendered on the character list (the inputs
the validator trims are ASCII). -/
def trimSpace (s : String) : String :=
  String.mk (((s.data.dropWhile isSpaceChar).reverse.dropWhile isSpaceChar).reverse)

/-- A validator issue (workflow.Issue); severity is the Go Severity
string ("error" or "warning"); meta is the free-form meta object. -/
structure Issue where
  code : String := ""
  severity : String := ""
  message : String := ""
  workflowID : String := ""
  stepName : String := ""
  field : String := ""
  path : String := ""
  hint : String := ""
  meta : JObj := []
  deriving Repr

/-- A validation report (workflow.Report). -/
structure Report where
  valid : Bool := false
  errors : List Issue := []
  warnings : List Issue := []
  deriving Repr

/-- The strict issue order of workflow.sortIssues: by workflow id,
then path, then code, then message. -/
def issueLess (a b : Issue) : Bool :=
  if a.workflowID ≠ b.workflowID then strLt a.workflowID b.workflowID
  else if a.path ≠ b.path then strLt a.path b.path
  else if a.code ≠ b.code then strLt a.code b.code
  else strLt a.message b.message

/-- Stable insertion of an issue after every element not strictly
greater than it. -/
def insertIssue (x : Issue) : List Issue → List Issue
  | [] => [x]
  | y :: rest => if issueLess x y then x :: y :: rest else y :: insertIssue x rest

/-- workflow.sortIssues: a stable sort by issueLess (sort.SliceStable);
stable insertion sort produces the same list as any stable sort by the
same comparison. -/
def sortIssues (l : List Issue) : List Issue :=
  l.foldl (fun acc x => insertIssue x acc) []

/-- Report.finalize: sort both lists, then valid iff no errors. -/
def finalize (r : Report) : Report :=
  let errors := sortIssues r.errors
  let warnings := sortIssues r.warnings
  { valid := errors.length = 0, errors := errors, warnings := warnings }

/-- Storage oracle for the validator (storage.PostgresClient plus
uuid.Parse): wfLoad combines LoadWorkflow (outer error) with
definition.ParseWorkflow (inner error); uuidErr gives the uuid.Parse
failure message for an id, none when the id parses. -/
structure VStore where
  wfExists : String → Except String Bool
  wfLoad : String → Except String (Except String Workflow)
  devExistsEnabled : String → Except String (Bool × Bool)
  uuidErr : String → Option String

/-- The traversal state (workflow.walkState): cache of parsed
definitions, visiting and done markers, the current path stack, and the
collected report lists. -/
structure WalkState where
  cache : List (String × Workflow) := []
  visiting : List String := []
  done : List String := []
  stack : List String := []
  errors : List Issue := []
  warnings : List Issue := []

/-- Report.addError: default the severity to error, append. -/
def addError (st : WalkState) (i : Issue) : WalkState :=
  { st with errors := st.errors ++ [if i.severity = "" then { i with severity := "error" } else i] }

/-- Report.addWarning: default the severity to warning, append. -/
def addWarning (st : WalkState) (i : Issue) : WalkState :=
  { st with warnings := st.warnings ++ [if i.severity = "" then { i with severity := "warning" } else i] }

/-- Association lookup in the definition cache. -/
def cacheFind : List (String × Workflow) → String → Option Workflow
  | [], _ => none
  | (k, v) :: rest, key => if k = key then some v else cacheFind rest key

/-- walkState.getWorkflow: cache hit, else existence probe, load and
parse; a parse failure emits WORKFLOW_900 and reads as not found. -/
def getWorkflow (store : VStore) (st : WalkState) (wid : String) :
    WalkState × Except String (Option Workflow) :=
  match cacheFind st.cache wid with
  | some d => (st, .ok (some d))
  | none =>
    match store.wfExists wid with
    | .error e => (st, .error e)
    | .ok false => (st, .ok none)
    | .ok true =>
      match store.wfLoad wid with
      | .error e => (st, .error e)
      | .ok (.error parseErr) =>
        (addError st
          { code := "WORKFLOW_900", severity := "error",
            message := "Workflow definition JSON invalid: " ++ parseErr,
            workflowID := wid, field := "definition", path := "/definition" },
         .ok none)
      | .ok (.ok d) =>
        ({ st with cache := st.cache ++ [(wid, d)] }, .ok (some d))

/-- workflow.requiredParamsForOp. -/
def requiredParamsForOp : String → List String
  | "read" => ["register_type", "address"]
  | "write" => ["register_type", "address", "value"]
  | "read_logical" => ["register"]
  | "write_logical" => ["register", "value"]
  | "read_register" => ["register"]
  | "write_register" => ["register", "value"]
  | _ => []

/-- walkState.validateDeviceStep: device id presence and lookup,
operation presence and support, required parameters as warnings, and
the static register_type check for read and write. -/
def validateDeviceStep (store : VStore) (st : WalkState) (wid : String)
    (step : Step) (idx : Nat) (base : String) : WalkState :=
  let stepName := step.name
  let st :=
    if trimSpace step.deviceID = "" then
      addError st
        { code := "DEVICE_010", severity := "error",
          message := "device_id is required for device step",
          workflowID := wid, stepName := stepName, field := "device_id",
          path := base ++ "/device_id",
          meta := [("step_index", JValue.num (Int.ofNat idx))] }
    else
      match store.devExistsEnabled step.deviceID with
      | .error e =>
        addError st
          { code := "DEVICE_999", severity := "error",
            message := "Device lookup failed: " ++ e,
            workflowID := wid, stepName := stepName, field := "device_id",
            path := base ++ "/device_id",
            meta := [("step_index", JValue.num (Int.ofNat idx))] }
      | .ok (false, _) =>
        addError st
          { code := "DEVICE_001", severity := "error",
            message := "Device not found: " ++ step.deviceID,
            workflowID := wid, stepName := stepName, field := "device_id",
            path := base ++ "/device_id",
            meta := [("step_index", JValue.num (Int.ofNat idx))] }
      | .ok (true, false) =>
        addError st
          { code := "DEVICE_002", severity := "error",
            message := "Device is disabled: " ++ step.deviceID,
            workflowID := wid, stepName := stepName, field := "device_id",
            path := base ++ "/device_id",
            meta := [("step_index", JValue.num (Int.ofNat idx))] }
      | .ok (true, true) => st
  let op := trimSpace step.operation
  if op = "" then
    addError st
      { code := "DEVICE_011", severity := "error",
        message := "operation is required for device step",
        workflowID := wid, stepName := stepName, field := "operation",
        path := base ++ "/operation",
        meta := [("step_index", JValue.num (Int.ofNat idx))] }
  else if (requiredParamsForOp op).isEmpty then
    addError st
      { code := "DEVICE_012", severity := "error",
        message := "Unsupported operation: " ++ op,
        workflowID := wid, stepName := stepName, field := "operation",
        path := base ++ "/operation",
        meta := [("step_index", JValue.num (Int.ofNat idx))] }
  else
    let required := requiredParamsForOp op
    let st := required.foldl
      (fun st k =>
        match step.parameters with
        | none =>
          addWarning st
            { code := "DEVICE_020", severity := "warning",
              message := "Missing parameter " ++ k ++ " (step.parameters is empty)",
              workflowID := wid, stepName := stepName,
              field := "parameters." ++ k, path := base ++ "/parameters",
              hint := "Define it in step.parameters or provide it in the execution input",
              meta := [("step_index", JValue.num (Int.ofNat idx)), ("param", JValue.str k)] }
        | some ps =>
          match lookupJ ps k with
          | none =>
            addWarning st
              { code := "DEVICE_020", severity := "warning",
                message := "Missing parameter " ++ k,
                workflowID := wid, stepName := stepName,
                field := "parameters." ++ k, path := base ++ "/parameters",
                hint := "Define it in step.parameters or provide it in the execution input",
                meta := [("step_index", JValue.num (Int.ofNat idx)), ("param", JValue.str k)] }
          | some _ => st)
      st
    match step.parameters with
    | none => st
    | some ps =>
      if op = "read" ∨ op = "write" then
        match lookupJ ps "register_type" with
        | some (.str s) =>
          if s ≠ "holding" ∧ s ≠ "input" then
            addError st
              { code := "DEVICE_021", severity := "error",
                message := "Invalid register_type: " ++ s,
                workflowID := wid, stepName := stepName,
                field := "parameters.register_type",
                path := base ++ "/parameters/register_type",
                meta := [("step_index", JValue.num (Int.ofNat idx))] }
          else st
        | _ => st
      else st

/-- workflow.cyclePath: the id path from the first occurrence of the
target on the stack to the end, followed by the target again. -/
def cyclePath (stack : List String) (target : String) : List String :=
  match stack.findIdx? (· = target) with
  | none => [target]
  | some start => stack.drop start ++ [target]

/-- walkState.validateSubWorkflowStep: workflow id presence, uuid
validity, target existence, then the cycle check against the visiting
set; otherwise recurse through the walk continuation. -/
def validateSubWorkflowStep (store : VStore)
    (walkF : WalkState → String → WalkState) (st : WalkState) (wid : String)
    (step : Step) (idx : Nat) (base : String) : WalkState :=
  let stepName := step.name
  if trimSpace step.workflowID = "" then
    addError st
      { code := "WORKFLOW_010", severity := "error",
        message := "workflow_id is required for workflow step",
        workflowID := wid, stepName := stepName, field := "workflow_id",
        path := base ++ "/workflow_id",
        meta := [("step_index", JValue.num (Int.ofNat idx))] }
  else
    match store.uuidErr step.workflowID with
    | some e =>
      addError st
        { code := "WORKFLOW_011", severity := "error",
          message := "Invalid workflow_id: " ++ e,
          workflowID := wid, stepName := stepName, field := "workflow_id",
          path := base ++ "/workflow_id",
          meta := [("step_index", JValue.num (Int.ofNat idx))] }
    | none =>
      let subID := step.workflowID
      match store.wfExists subID with
      | .error e =>
        addError st
          { code := "WORKFLOW_999", severity := "error",
            message := "Workflow lookup failed: " ++ e,
            workflowID := wid, stepName := stepName, field := "workflow_id",
            path := base ++ "/workflow_id",
            meta := [("step_index", JValue.num (Int.ofNat idx))] }
      | .ok false =>
        addError st
          { code := "WORKFLOW_003", severity := "error",
            message := "Referenced workflow not found: " ++ subID,
            workflowID := wid, stepName := stepName, field := "workflow_id",
            path := base ++ "/workflow_id",
            meta := [("step_index", JValue.num (Int.ofNat idx))] }
      | .ok true =>
        if st.visiting.contains subID then
          addError st
            { code := "WORKFLOW_050", severity := "error",
              message := "Circular workflow reference detected",
              workflowID := wid, stepName := stepName, field := "workflow_id",
              path := base ++ "/workflow_id",
              meta :=
                [("step_index", JValue.num (Int.ofNat idx)),
                 ("cycle", JValue.arr ((cyclePath st.stack subID).map JValue.str))] }
        else
          walkF st subID

/-- walkState.validateWorkflow: the per-workflow header checks, then
the indexed loop over the steps. -/
def validateWorkflow (store : VStore)
    (walkF : WalkState → String → WalkState) (st : WalkState) (wid : String)
    (wf : Workflow) : WalkState :=
  let st :=
    if trimSpace wf.name = "" then
      addError st
        { code := "WORKFLOW_001", severity := "error",
          message := "Workflow name is required", workflowID := wid,
          field := "name", path := "/name" }
    else st
  let st :=
    if trimSpace wf.version = "" then
      addWarning st
        { code := "WORKFLOW_002", severity := "warning",
          message := "Workflow version is empty", workflowID := wid,
          field := "version", path := "/version" }
    else st
  if wf.steps.isEmpty then
    addError st
      { code := "WORKFLOW_004", severity := "error",
        message := "Workflow has no steps", workflowID := wid,
        field := "steps", path := "/steps" }
  else
    let st :=
      match wf.loop with
      | some l =>
        if l.enabled ∧ l.maxCount < 0 then
          addError st
            { code := "WORKFLOW_005", severity := "error",
              message := "loop.max_count must be >= 0", workflowID := wid,
              field := "loop.max_count", path := "/loop/max_count" }
        else st
      | none => st
    (wf.steps.enum).foldl
      (fun st iStep =>
        let i := iStep.1
        let step := iStep.2
        let base := "/steps/" ++ toString i
        let st :=
          if trimSpace step.name = "" then
            addError st
              { code := "STEP_001", severity := "error",
                message := "Step name is required", workflowID := wid,
                field := "name", path := base ++ "/name",
                meta := [("step_index", JValue.num (Int.ofNat i))] }
          else st
        match step.type with
        | .device => validateDeviceStep store st wid step i base
        | .workflow => validateSubWorkflowStep store walkF st wid step i base
        | .wait => st
        | .other s =>
          addError st
            { code := "STEP_002", severity := "error",
              message := "Unsupported step type: " ++ s, workflowID := wid,
              field := "type", path := base ++ "/type",
              meta := [("step_index", JValue.num (Int.ofNat i))] })
      st

/-- walkState.walk: done and visiting short circuits, load, then the
visit with push and pop of the path. Recursion through sub-workflow
references is bounded by fuel; the Go original terminates because the
visiting and done sets are finite, and any fuel at least the number of
reachable workflows plus one reproduces it exactly. -/
def walk (store : VStore) : Nat → WalkState → String → WalkState
  | 0, st, _ => st
  | fuel + 1, st, wid =>
    if st.done.contains wid then st
    else if st.visiting.contains wid then
      addError st
        { code := "WORKFLOW_050", severity := "error",
          message := "Circular workflow reference detected", workflowID := wid }
    else
      match getWorkflow store st wid with
      | (st, .error e) =>
        let st := addError st
          { code := "WORKFLOW_901", severity := "error",
            message := "Failed to load workflow: " ++ e, workflowID := wid }
        { st with done := st.done ++ [wid] }
      | (st, .ok none) =>
        let st := addError st
          { code := "WORKFLOW_003", severity := "error",
            message := "Referenced workflow not found", workflowID := wid }
        { st with done := st.done ++ [wid] }
      | (st, .ok (some d)) =>
        let st := { st with visiting := st.visiting ++ [wid], stack := st.stack ++ [wid] }
        let st := validateWorkflow store (walk store fuel) st wid d
        { st with stack := st.stack.dropLast,
                  visiting := st.visiting.erase wid,
                  done := st.done ++ [wid] }

/-- Validator.ValidateByID: a top-level load failure is returned as the
error (the accompanying zero report is not part of the result
contract); a parse failure becomes a WORKFLOW_900 report; otherwise the
walk runs from the root with the root definition pre-cached, and the
report is finalized. -/
def ValidateByID (store : VStore) (fuel : Nat) (workflowID : String) :
    Except String Report :=
  match store.wfLoad workflowID with
  | .error e => .error e
  | .ok (.error parseErr) =>
    .ok (finalize
      { errors :=
          [{ code := "WORKFLOW_900", severity := "error",
             message := "Workflow definition JSON invalid: " ++ parseErr,
             workflowID := workflowID, field := "definition", path := "/definition" }] })
  | .ok (.ok d) =>
    let st0 : WalkState := { cache := [(workflowID, d)] }
    let st := walk store fuel st0 workflowID
    .ok (finalize { errors := st.errors, warnings := st.warnings })

end Validator

namespace Fixtures

open Definition Executor Engine

/-- A device client whose every operation succeeds. -/
def okClient : DevClient where
  readHoldingRegisters := fun _ count => .ok (List.replicate count 0)
  readInputRegisters := fun _ count => .ok (List.replicate count 0)
  writeSingleRegister := fun _ _ => .ok ()
  readRegister := fun _ => .ok (.num 7)
  writeRegister := fun _ _ => .ok ()
  readLogical := fun _ => .ok (.num 7)
  writeLogical := fun _ _ => .ok ()

/-- A device manager holding the single healthy device D1. -/
def devMgr1 : String → Option Device :=
  fun name => if name = "D1" then some { client := okClient } else none

/-- Workflow storage with no stored workflows. -/
def noWorkflows : String → Option Workflow := fun _ => none

/-- A context oracle that never cancels. -/
def noCancel : Nat → Bool := fun _ => false

/-- A device write step used by the engine scenarios: its output object
differs from any input that lacks a success field. -/
def writeStep : Step :=
  { number := "10", name := "set", type := .device, deviceID := "D1",
    operation := "write",
    parameters := some
      [("register_type", JValue.str "holding"),
       ("address", JValue.num 1), ("value", JValue.num 5)] }

/-- A wait step. -/
def waitStep : Step := { number := "20", name := "pause", type := .wait }

/-- A two step workflow: a device write followed by a wait. -/
def wfTwo : Workflow := { id := "W", programName := "main", steps := [writeStep, waitStep] }

/-- The input of the engine scenarios. -/
def inputX : JObj := [("x", JValue.num 0)]

/-- The trace of the two step workflow under the always-healthy device. -/
def traceTwo : RunState :=
  runExecution 9 noWorkflows devMgr1 noCancel noCancel wfTwo inputX

/-- A single wait step workflow and its trace. -/
def wfOne : Workflow := { id := "W1", programName := "main", steps := [waitStep] }

/-- Trace of the single step workflow. -/
def traceOne : RunState :=
  runExecution 9 noWorkflows devMgr1 noCancel noCancel wfOne inputX

/-- A device step naming an absent device, and a workflow around it. -/
def badDeviceStep : Step :=
  { number := "10", name := "broken", type := .device, deviceID := "DX",
    operation := "write", parameters := some [] }

/-- Workflow with the failing device step. -/
def wfBad : Workflow := { id := "WB", programName := "main", steps := [badDeviceStep] }

/-- Trace of the failing workflow. -/
def traceBad : RunState :=
  runExecution 9 noWorkflows devMgr1 noCancel noCancel wfBad inputX

/-- A workflow whose SECOND step fails: a wait step followed by the
absent device step. -/
def wfLateBad : Workflow :=
  { id := "WLB", programName := "main", steps := [waitStep, badDeviceStep] }

/-- Trace of the workflow failing at its second step. -/
def traceLateBad : RunState :=
  runExecution 9 noWorkflows devMgr1 noCancel noCancel wfLateBad inputX

/-- An empty event streamer. -/
def emptyStreamer : Streaming.EventStreamer := { subscribers := fun _ => [] }

/-- A sample execution event. -/
def sampleEvent : Engine.Event := { eventType := "step.started", payload := [] }

/-- An engine oracle whose executions start successfully. -/
def okEngine : Machine.EngineOracle := { executeWorkflow := fun _ => .ok "E1" }

/-- A sub-workflow call step for the validator scenarios. -/
def wstep (target : String) : Definition.Step :=
  { number := "10", name := "call", type := .workflow, workflowID := target }

/-- Workflow A referencing B. -/
def wfA : Workflow :=
  { id := "A", name := "A", programName := "a", version := "1", steps := [wstep "B"] }

/-- Workflow B referencing A back. -/
def wfB : Workflow :=
  { id := "B", name := "B", programName := "b", version := "1", steps := [wstep "A"] }

/-- Validator storage for the two workflow cycle A, B, A. -/
def storeAB : Validator.VStore where
  wfExists := fun wid => .ok (wid = "A" ∨ wid = "B")
  wfLoad := fun wid =>
    if wid = "A" then .ok (.ok wfA)
    else if wid = "B" then .ok (.ok wfB)
    else .error "not found"
  devExistsEnabled := fun _ => .ok (true, true)
  uuidErr := fun _ => none

/-- Workflow A whose two steps both reference A itself: the cycle is
closed by two distinct references. -/
def wfAA : Workflow :=
  { id := "A", name := "A", programName := "a", version := "1",
    steps := [wstep "A", wstep "A"] }

/-- Validator storage for the doubly self referencing workflow. -/
def storeAA : Validator.VStore where
  wfExists := fun wid => .ok (wid = "A")
  wfLoad := fun wid => if wid = "A" then .ok (.ok wfAA) else .error "not found"
  devExistsEnabled := fun _ => .ok (true, true)
  uuidErr := fun _ => none

/-- The report computed for the two workflow cycle. -/
def repAB : Validator.Report :=
  match Validator.ValidateByID storeAB 9 "A" with
  | .ok r => r
  | .error _ => {}

/-- The report computed for the doubly self referencing workflow. -/
def repAA : Validator.Report :=
  match Validator.ValidateByID storeAA 9 "A" with
  | .ok r => r
  | .error _ => {}

end Fixtures

section Theorems

open Definition Executor Engine Streaming Machine Validator Fixtures

/-- Rendering a one-frame call stack: program name, colon, S, number. -/
theorem BuildHierarchicalStepID_singleton (f : CallFrame) :
    BuildHierarchicalStepID [f] = f.programName ++ ":S" ++ f.stepNumber := by
  show f.programName ++ ":" ++ ("S" ++ f.stepNumber) = f.programName ++ ":S" ++ f.stepNumber
  have h2 : (":" : String) ++ "S" = ":S" := by decide
  rw [String.append_assoc, ← String.append_assoc ":" "S" f.stepNumber, h2,
    ← String.append_assoc]

/-- Updating the current step of a one-frame stack replaces the number
of its only frame. -/
theorem setCurrentStep_singleton (f : CallFrame) (n : String) :
    setCurrentStep [f] n = [{ f with stepNumber := n }] := rfl

/-- The step record and the two events appended by engineExecuteStep
when the executor succeeds, starting from a one-frame tracker. -/
theorem engineExecuteStep_ok (fuel : Nat) (storage : String → Option Workflow)
    (deviceManager : String → Option Device) (ctxDone : Bool)
    (st : RunState) (index : Nat) (step : Step) (input : JObj)
    (a p cur : String) (out : JObj)
    (hst : st.tracker = [{ workflowID := a, programName := p, stepNumber := cur }])
    (hexec : Execute fuel storage deviceManager ctxDone step input = .ok out) :
    engineExecuteStep fuel storage deviceManager ctxDone st index step input =
      ({ st with
          tracker := [{ workflowID := a, programName := p, stepNumber := step.number }],
          steps := st.steps ++
            [{ stepIndex := index, stepName := step.name,
               hierarchicalStepID := p ++ ":S" ++ step.number, depth := 1,
               status := .success, input := input, output := some out }],
          events := st.events ++
            [startedEvent index step.name (p ++ ":S" ++ step.number) 1,
             completedEvent index step.name (p ++ ":S" ++ step.number) out] },
       .ok out) := by
  have hset : setCurrentStep st.tracker step.number =
      [{ workflowID := a, programName := p, stepNumber := step.number }] := by
    rw [hst]; rfl
  have hhid : BuildHierarchicalStepID
      [CallFrame.mk a p step.number] = p ++ ":S" ++ step.number :=
    BuildHierarchicalStepID_singleton _
  simp only [engineExecuteStep, hset, hexec, hhid, List.length_singleton]

/-- The step record and the two events appended by engineExecuteStep
when the executor fails, starting from a one-frame tracker. -/
theorem engineExecuteStep_err (fuel : Nat) (storage : String → Option Workflow)
    (deviceManager : String → Option Device) (ctxDone : Bool)
    (st : RunState) (index : Nat) (step : Step) (input : JObj)
    (a p cur : String) (e : String)
    (hst : st.tracker = [{ workflowID := a, programName := p, stepNumber := cur }])
    (hexec : Execute fuel storage deviceManager ctxDone step input = .error e) :
    engineExecuteStep fuel storage deviceManager ctxDone st index step input =
      ({ st with
          tracker := [{ workflowID := a, programName := p, stepNumber := step.number }],
          steps := st.steps ++
            [{ stepIndex := index, stepName := step.name,
               hierarchicalStepID := p ++ ":S" ++ step.number, depth := 1,
               status := .failed, input := input, error := e }],
          events := st.events ++
            [startedEvent index step.name (p ++ ":S" ++ step.number) 1,
             failedEvent index step.name (p ++ ":S" ++ step.number) e] },
       .error e) := by
  have hset : setCurrentStep st.tracker step.number =
      [{ workflowID := a, programName := p, stepNumber := step.number }] := by
    rw [hst]; rfl
  have hhid : BuildHierarchicalStepID
      [CallFrame.mk a p step.number] = p ++ ":S" ++ step.number :=
    BuildHierarchicalStepID_singleton _
  simp only [engineExecuteStep, hset, hexec, hhid, List.length_singleton]

/-- The step loop on an exhausted step list: mark success and broadcast
the completion message; no event is published. -/
theorem runSteps_nil (fuel : Nat) (storage : String → Option Workflow)
    (deviceManager : String → Option Device) (cancelAt ctxInStep : Nat → Bool)
    (input : JObj) (i : Nat) (st : RunState) :
    runSteps fuel storage deviceManager cancelAt ctxInStep input [] i st =
      { tracker := st.tracker,
        exec := { st.exec with
                    status := .success, completedAt := true,
                    currentStepID := BuildHierarchicalStepID st.tracker,
                    callStack := st.tracker },
        steps := st.steps, events := st.events,
        ws := st.ws ++ [wsRunCompleted] } := rfl

/-- The step loop under a fired cancellation scope: mark cancelled and
broadcast the cancellation message; no event is published. -/
theorem runSteps_cons_cancel (fuel : Nat) (storage : String → Option Workflow)
    (deviceManager : String → Option Device) (cancelAt ctxInStep : Nat → Bool)
    (input : JObj) (step : Step) (rest : List Step) (i : Nat) (st : RunState)
    (hc : cancelAt i = true) :
    runSteps fuel storage deviceManager cancelAt ctxInStep input (step :: rest) i st =
      { tracker := st.tracker,
        exec := { st.exec with
                    status := .cancelled, completedAt := true,
                    currentStepID := BuildHierarchicalStepID st.tracker,
                    callStack := st.tracker },
        steps := st.steps, events := st.events,
        ws := st.ws ++ [wsRunCancelled step] } := by
  simp only [runSteps, hc, if_true, syncTracker]

/-- The step loop when the executor fails the head step: the failed
step record and the two step events are appended, the execution status
becomes failed with the error field untouched, and the loop exits. -/
theorem runSteps_cons_err (fuel : Nat) (storage : String → Option Workflow)
    (deviceManager : String → Option Device) (cancelAt ctxInStep : Nat → Bool)
    (input : JObj) (step : Step) (rest : List Step) (i : Nat) (st : RunState)
    (a p cur e : String)
    (hc : cancelAt i = false)
    (hst : st.tracker = [{ workflowID := a, programName := p, stepNumber := cur }])
    (hexec : Execute fuel storage deviceManager (ctxInStep i) step input = .error e) :
    runSteps fuel storage deviceManager cancelAt ctxInStep input (step :: rest) i st =
      { tracker := [{ workflowID := a, programName := p, stepNumber := step.number }],
        exec := { st.exec with
                    status := .failed, completedAt := true,
                    currentStepID := p ++ ":S" ++ step.number,
                    callStack := [{ workflowID := a, programName := p, stepNumber := step.number }] },
        steps := st.steps ++
          [{ stepIndex := i, stepName := step.name,
             hierarchicalStepID := p ++ ":S" ++ step.number, depth := 1,
             status := .failed, input := input, error := e }],
        events := st.events ++
          [startedEvent i step.name (p ++ ":S" ++ step.number) 1,
           failedEvent i step.name (p ++ ":S" ++ step.number) e],
        ws := st.ws ++ [wsExecuting step, wsRunFailed step e] } := by
  have h1 := engineExecuteStep_err fuel storage deviceManager (ctxInStep i)
    { st with ws := st.ws ++ [wsExecuting step] }
    i step input a p cur e hst hexec
  simp only [runSteps, hc, if_false, Bool.false_eq_true, h1, syncTracker,
    BuildHierarchicalStepID_singleton, List.append_assoc]
  rfl

/-- The step loop when the executor succeeds on the head step: the
success record and the two step events are appended, the loop continues
on the rest with the SAME original input and an unchanged execution
row. -/
theorem runSteps_cons_ok (fuel : Nat) (storage : String → Option Workflow)
    (deviceManager : String → Option Device) (cancelAt ctxInStep : Nat → Bool)
    (input : JObj) (step : Step) (rest : List Step) (i : Nat) (st : RunState)
    (a p cur : String) (out : JObj)
    (hc : cancelAt i = false)
    (hst : st.tracker = [{ workflowID := a, programName := p, stepNumber := cur }])
    (hexec : Execute fuel storage deviceManager (ctxInStep i) step input = .ok out) :
    runSteps fuel storage deviceManager cancelAt ctxInStep input (step :: rest) i st =
      runSteps fuel storage deviceManager cancelAt ctxInStep input rest (i + 1)
        { tracker := [{ workflowID := a, programName := p, stepNumber := step.number }],
          exec := { st.exec with
                      currentStepID := p ++ ":S" ++ step.number,
                      callStack := [{ workflowID := a, programName := p, stepNumber := step.number }] },
          steps := st.steps ++
            [{ stepIndex := i, stepName := step.name,
               hierarchicalStepID := p ++ ":S" ++ step.number, depth := 1,
               status := .success, input := input, output := some out }],
          events := st.events ++
            [startedEvent i step.name (p ++ ":S" ++ step.number) 1,
             completedEvent i step.name (p ++ ":S" ++ step.number) out],
          ws := st.ws ++ [wsExecuting step, wsStepDone step] } := by
  have h1 := engineExecuteStep_ok fuel storage deviceManager (ctxInStep i)
    { st with ws := st.ws ++ [wsExecuting step] }
    i step input a p cur out hst hexec
  simp only [runSteps, hc, if_false, Bool.false_eq_true, h1, syncTracker,
    BuildHierarchicalStepID_singleton, List.append_assoc]
  rfl

/-- Master invariant of the runner step loop, from any state whose
tracker is a single root frame: the loop appends step records whose
depth is one, whose index counts from the loop index, whose input is
the original execution input and whose hierarchical id renders the root
program name with the own number of the corresponding remaining step;
it appends only step events of the three fixed payload shapes, exactly
one terminal websocket message, never touches the execution input,
output or error fields, reaches failed only with a failed appended
record, and reaches success whenever no cancellation fires and every
remaining step executes without error. -/
theorem runSteps_spec (fuel : Nat) (storage : String → Option Workflow)
    (deviceManager : String → Option Device) (cancelAt ctxInStep : Nat → Bool)
    (input : JObj) :
    ∀ (rem : List Step) (i : Nat) (st : RunState) (a p cur : String) (res : RunState),
    st.tracker = [{ workflowID := a, programName := p, stepNumber := cur }] →
    res = runSteps fuel storage deviceManager cancelAt ctxInStep input rem i st →
    ∃ (tail : List StepRecord) (evtail : List Event) (wstail : List WsMsg) (curNew : String),
      res.tracker = [{ workflowID := a, programName := p, stepNumber := curNew }] ∧
      res.steps = st.steps ++ tail ∧
      res.events = st.events ++ evtail ∧
      res.ws = st.ws ++ wstail ∧
      res.exec.input = st.exec.input ∧
      res.exec.output = st.exec.output ∧
      res.exec.error = st.exec.error ∧
      tail.length ≤ rem.length ∧
      (∀ k (hk : k < tail.length),
        ∃ (hk2 : k < rem.length),
          (tail.get ⟨k, hk⟩).stepIndex = i + k ∧
          (tail.get ⟨k, hk⟩).depth = 1 ∧
          (tail.get ⟨k, hk⟩).input = input ∧
          (tail.get ⟨k, hk⟩).hierarchicalStepID =
            p ++ ":S" ++ (rem.get ⟨k, hk2⟩).number) ∧
      (∀ e ∈ evtail,
        (e.eventType = "step.started" ∧
          keysJ e.payload = ["step_index", "step_name", "hierarchical_step_id", "depth"]) ∨
        (e.eventType = "step.completed" ∧
          keysJ e.payload = ["step_index", "step_name", "hierarchical_step_id", "output"]) ∨
        (e.eventType = "step.failed" ∧
          keysJ e.payload = ["step_index", "step_name", "hierarchical_step_id", "error"])) ∧
      (wstail.filter isTerminalWs).length = 1 ∧
      (res.exec.status = .failed → ∃ rec ∈ tail, rec.status = Status.failed) ∧
      ((∀ j, cancelAt j = false) →
        (∀ k (hk : k < rem.length),
          ∃ out, Execute fuel storage deviceManager (ctxInStep (i + k))
            (rem.get ⟨k, hk⟩) input = .ok out) →
        res.exec.status = .success) := by
  intro rem
  induction rem with
  | nil =>
    intro i st a p cur res hst hres
    subst hres
    rw [runSteps_nil]
    refine ⟨[], [], [wsRunCompleted], cur, hst, by simp, by simp, rfl,
      rfl, rfl, rfl, by simp, ?_, ?_, rfl, ?_, ?_⟩
    · intro k hk
      simp at hk
    · intro e he
      simp at he
    · intro hfail
      simp at hfail
    · intro _ _
      rfl
  | cons step rest ih =>
    intro i st a p cur res hst hres
    by_cases hc : cancelAt i = true
    · subst hres
      rw [runSteps_cons_cancel fuel storage deviceManager cancelAt ctxInStep input
        step rest i st hc]
      refine ⟨[], [], [wsRunCancelled step], cur, hst, by simp, by simp, rfl,
        rfl, rfl, rfl, by simp, ?_, ?_, rfl, ?_, ?_⟩
      · intro k hk
        simp at hk
      · intro e he
        simp at he
      · intro hfail
        simp at hfail
      · intro hnc _
        exact absurd (hnc i) (by simp [hc])
    · have hc0 : cancelAt i = false := by
        revert hc
        cases cancelAt i <;> simp
      cases hexec : Execute fuel storage deviceManager (ctxInStep i) step input with
      | error e =>
        subst hres
        rw [runSteps_cons_err fuel storage deviceManager cancelAt ctxInStep input
          step rest i st a p cur e hc0 hst hexec]
        refine ⟨[{ stepIndex := i, stepName := step.name,
                   hierarchicalStepID := p ++ ":S" ++ step.number, depth := 1,
                   status := .failed, input := input, error := e }],
          [startedEvent i step.name (p ++ ":S" ++ step.number) 1,
           failedEvent i step.name (p ++ ":S" ++ step.number) e],
          [wsExecuting step, wsRunFailed step e], step.number,
          rfl, rfl, rfl, rfl, rfl, rfl, rfl, by simp, ?_, ?_, rfl, ?_, ?_⟩
        · intro k hk
          simp only [List.length_singleton] at hk
          match k, hk with
          | 0, _ =>
            exact ⟨by simp, rfl, rfl, rfl, rfl⟩
        · intro ev hev
          simp only [List.mem_cons, List.not_mem_nil, or_false] at hev
          rcases hev with h | h
          · subst h
            left
            exact ⟨rfl, rfl⟩
          · subst h
            right; right
            exact ⟨rfl, rfl⟩
        · intro _
          refine ⟨{ stepIndex := i, stepName := step.name,
                    hierarchicalStepID := p ++ ":S" ++ step.number, depth := 1,
                    status := .failed, input := input, error := e }, by simp, rfl⟩
        · intro _ hok
          obtain ⟨out, hout⟩ := hok 0 (by simp)
          rw [show ((step :: rest).get ⟨0, by simp⟩) = step from rfl] at hout
          rw [show i + 0 = i from rfl] at hout
          rw [hexec] at hout
          cases hout
      | ok out =>
        rw [runSteps_cons_ok fuel storage deviceManager cancelAt ctxInStep input
          step rest i st a p cur out hc0 hst hexec] at hres
        obtain ⟨tail, evtail, wstail, curNew, h1, h2, h3, h4, h5, h6, h7, h8, h9,
          h10, h11, h12, h13⟩ :=
          ih (i + 1) _ a p step.number res rfl hres
        refine ⟨{ stepIndex := i, stepName := step.name,
                  hierarchicalStepID := p ++ ":S" ++ step.number, depth := 1,
                  status := .success, input := input, output := some out } :: tail,
          startedEvent i step.name (p ++ ":S" ++ step.number) 1 ::
            completedEvent i step.name (p ++ ":S" ++ step.number) out :: evtail,
          wsExecuting step :: wsStepDone step :: wstail, curNew,
          h1, ?_, ?_, ?_, ?_, ?_, ?_, ?_, ?_, ?_, ?_, ?_, ?_⟩
        · rw [h2]
          simp
        · rw [h3]
          simp
        · rw [h4]
          simp
        · rw [h5]
        · rw [h6]
        · rw [h7]
        · simp only [List.length_cons]
          omega
        · intro k hk
          match k with
          | 0 =>
            exact ⟨by simp, rfl, rfl, rfl, rfl⟩
          | Nat.succ k2 =>
            simp only [List.length_cons, Nat.succ_lt_succ_iff] at hk
            obtain ⟨hk2, ha, hb, hcc, hd⟩ := h9 k2 hk
            refine ⟨by simp only [List.length_cons]; omega, ?_, ?_, ?_, ?_⟩
            · simp only [List.get_cons_succ]
              rw [ha]
              omega
            · simp only [List.get_cons_succ]
              exact hb
            · simp only [List.get_cons_succ]
              exact hcc
            · simp only [List.get_cons_succ]
              exact hd
        · intro ev hev
          simp only [List.mem_cons] at hev
          rcases hev with h | h | h
          · subst h
            left
            exact ⟨rfl, rfl⟩
          · subst h
            right; left
            exact ⟨rfl, rfl⟩
          · exact h10 ev h
        · simp only [List.filter_cons,
            show isTerminalWs (wsExecuting step) = false from rfl,
            show isTerminalWs (wsStepDone step) = false from rfl]
          simpa using h11
        · intro hfail
          obtain ⟨rec, hrec, hrecf⟩ := h12 hfail
          exact ⟨rec, List.mem_cons_of_mem _ hrec, hrecf⟩
        · intro hnc hok
          refine h13 hnc ?_
          intro k hk
          obtain ⟨o, ho⟩ := hok (k + 1) (by simp only [List.length_cons]; omega)
          refine ⟨o, ?_⟩
          rw [show (step :: rest).get ⟨k + 1, by simp only [List.length_cons]; omega⟩
              = rest.get ⟨k, hk⟩ from rfl] at ho
          rw [show i + (k + 1) = i + 1 + k by omega] at ho
          exact ho

/-- Failure localisation for the runner step loop: when the first k
remaining steps execute without error, no cancellation fires up to
iteration k, and the executor fails step k with message e, the loop
ends with status failed, the execution error field untouched, exactly
k + 1 new step records, and the last record failed carrying e at step
index i + k. -/
theorem runSteps_fail_at (fuel : Nat) (storage : String → Option Workflow)
    (deviceManager : String → Option Device) (cancelAt ctxInStep : Nat → Bool)
    (input : JObj) :
    ∀ (rem : List Step) (k i : Nat) (st : RunState) (a p cur e : String)
      (res : RunState),
    st.tracker = [{ workflowID := a, programName := p, stepNumber := cur }] →
    res = runSteps fuel storage deviceManager cancelAt ctxInStep input rem i st →
    (∀ j, j ≤ k → cancelAt (i + j) = false) →
    ∀ (hk : k < rem.length),
    (∀ j (hj : j < k), ∃ out,
      Execute fuel storage deviceManager (ctxInStep (i + j))
        (rem.get ⟨j, Nat.lt_trans hj hk⟩) input = .ok out) →
    Execute fuel storage deviceManager (ctxInStep (i + k)) (rem.get ⟨k, hk⟩) input
      = .error e →
    res.exec.status = .failed ∧
    res.exec.error = st.exec.error ∧
    res.steps.length = st.steps.length + (k + 1) ∧
    ∃ rec, res.steps.getLast? = some rec ∧
      rec.status = .failed ∧ rec.error = e ∧ rec.stepIndex = i + k := by
  intro rem
  induction rem with
  | nil =>
    intro k i st a p cur e res hst hres hnc hk hpre hexec
    exact absurd hk (Nat.not_lt_zero k)
  | cons step rest ih =>
    intro k i st a p cur e res hst hres hnc hk hpre hexec
    have hc0 : cancelAt i = false := by
      have h0 := hnc 0 (Nat.zero_le k)
      simpa using h0
    cases k with
    | zero =>
      subst hres
      rw [runSteps_cons_err fuel storage deviceManager cancelAt ctxInStep input
        step rest i st a p cur e hc0 hst hexec]
      refine ⟨rfl, rfl, by simp, ?_⟩
      refine ⟨{ stepIndex := i, stepName := step.name,
                hierarchicalStepID := p ++ ":S" ++ step.number, depth := 1,
                status := .failed, input := input, error := e },
        ?_, rfl, rfl, rfl⟩
      exact List.getLast?_concat _
    | succ k2 =>
      obtain ⟨out, hout⟩ := hpre 0 (Nat.succ_pos k2)
      have hrw := runSteps_cons_ok fuel storage deviceManager cancelAt ctxInStep input
        step rest i st a p cur out hc0 hst hout
      have hres2 := hres.trans hrw
      have hnc2 : ∀ j, j ≤ k2 → cancelAt (i + 1 + j) = false := by
        intro j hj
        have h1 := hnc (j + 1) (by omega)
        rwa [show i + (j + 1) = i + 1 + j by omega] at h1
      have hk2 : k2 < rest.length := by
        have := hk
        simp only [List.length_cons] at this
        omega
      have hpre2 : ∀ j (hj : j < k2), ∃ out2,
          Execute fuel storage deviceManager (ctxInStep (i + 1 + j))
            (rest.get ⟨j, Nat.lt_trans hj hk2⟩) input = .ok out2 := by
        intro j hj
        obtain ⟨o, ho⟩ := hpre (j + 1) (by omega)
        refine ⟨o, ?_⟩
        rw [show i + 1 + j = i + (j + 1) by omega]
        exact ho
      have hexec2 : Execute fuel storage deviceManager (ctxInStep (i + 1 + k2))
          (rest.get ⟨k2, hk2⟩) input = .error e := by
        rw [show i + 1 + k2 = i + (k2 + 1) by omega]
        exact hexec
      obtain ⟨hs, he, hlen, rec, hlast, hf1, hf2, hf3⟩ :=
        ih k2 (i + 1) _ a p step.number e res rfl hres2 hnc2 hk2 hpre2 hexec2
      refine ⟨hs, he, ?_, rec, hlast, hf1, hf2, hf3.trans (by omega)⟩
      have hlen2 : res.steps.length = st.steps.length + 1 + (k2 + 1) := by
        simpa using hlen
      omega

/-- The broadcast loop is an independent per-channel map of the
non-blocking send. -/
theorem broadcastLoop_eq_map (l : List Streaming.Chan) (ev : Engine.Event) :
    broadcastLoop l ev =
      l.map (fun ch =>
        if ch.buffer.length < ch.capacity then { ch with buffer := ch.buffer ++ [ev] } else ch) := by
  induction l with
  | nil => rfl
  | cons ch rest ih => simp [broadcastLoop, trySend, ih]

/-- C7: subscribe(E) returns a bounded channel of capacity 100 (with an
empty buffer) registered against E, and broadcast(E, event) maps every
subscriber of E independently, appending the event exactly when the
buffer has free space and dropping it for that subscriber otherwise;
subscribers of other execution ids are untouched and broadcast is a
total function that never fails. -/
theorem claim_C7_streamer_bounded_fanout
    (s : EventStreamer) (e : String) (ev : Engine.Event) :
    ((Subscribe s e).2.capacity = 100 ∧ (Subscribe s e).2.buffer = []) ∧
    ((Subscribe s e).1.subscribers e = s.subscribers e ++ [(Subscribe s e).2]) ∧
    (∀ k, k ≠ e → (Subscribe s e).1.subscribers k = s.subscribers k) ∧
    ((Broadcast s e ev).subscribers e =
      (s.subscribers e).map (fun ch =>
        if ch.buffer.length < ch.capacity then { ch with buffer := ch.buffer ++ [ev] } else ch)) ∧
    (∀ k, k ≠ e → (Broadcast s e ev).subscribers k = s.subscribers k) := by
  refine ⟨⟨rfl, rfl⟩, ?_, ?_, ?_, ?_⟩
  · simp [Subscribe]
  · intro k hk
    simp [Subscribe, hk]
  · simp [Broadcast, broadcastLoop_eq_map]
  · intro k hk
    simp [Broadcast, hk]

/-- Witness for C7 at a concrete streamer, execution id and event. -/
theorem claim_C7_streamer_bounded_fanout_witness :
    (Subscribe emptyStreamer "E").2.capacity = 100 ∧
    (Broadcast emptyStreamer "E" sampleEvent).subscribers "F" =
      emptyStreamer.subscribers "F" := by
  have h := claim_C7_streamer_bounded_fanout emptyStreamer "E" sampleEvent
  exact ⟨h.1.1, h.2.2.2.2 "F" (by decide)⟩

/-- C8: the machine controller accepts home only in stopped, start only
in ready, stop only in running and reset only in error or emergency; in
every other combination the command returns the precondition error and
the controller state (state, execution id, error message, production
cycles) is returned unchanged; an accepted reset clears the error
message, drops the execution id and moves to stopped, while accepted
home, start and stop leave the rejection branch and move the state to
the working state (or to error when the engine refuses the workflow). -/
theorem claim_C8_machine_command_preconditions
    (cfg : CtrlConfig) (eng : EngineOracle) (c : CtrlState) :
    (c.currentState ≠ .stopped →
      ExecuteCommand cfg eng c .home =
        (.error ("cannot home: machine must be stopped (current: " ++ c.currentState.render ++ ")"), c)) ∧
    (c.currentState = .stopped →
      (ExecuteCommand cfg eng c .home).2.currentState = .homing ∨
      (ExecuteCommand cfg eng c .home).2.currentState = .error) ∧
    (c.currentState ≠ .ready →
      ExecuteCommand cfg eng c .start =
        (.error ("cannot start: machine must be ready (current: " ++ c.currentState.render ++ ")"), c)) ∧
    (c.currentState = .ready →
      (ExecuteCommand cfg eng c .start).2.currentState = .running ∨
      (ExecuteCommand cfg eng c .start).2.currentState = .error) ∧
    (c.currentState ≠ .running →
      ExecuteCommand cfg eng c .stop =
        (.error ("cannot stop: machine not running (current: " ++ c.currentState.render ++ ")"), c)) ∧
    (c.currentState = .running →
      (ExecuteCommand cfg eng c .stop).2.currentState = .stopping ∨
      (ExecuteCommand cfg eng c .stop).2.currentState = .error) ∧
    (c.currentState ≠ .error → c.currentState ≠ .emergency →
      ExecuteCommand cfg eng c .reset =
        (.error ("cannot reset: no error state (current: " ++ c.currentState.render ++ ")"), c)) ∧
    (c.currentState = .error ∨ c.currentState = .emergency →
      ExecuteCommand cfg eng c .reset =
        (.ok (), { c with currentState := .stopped, errorMessage := "", currentExecID := "" })) := by
  refine ⟨?_, ?_, ?_, ?_, ?_, ?_, ?_, ?_⟩
  · intro h
    simp [ExecuteCommand, executeHome, h]
  · intro h
    cases hq : eng.executeWorkflow cfg.homeWorkflowID with
    | error e => right; simp [ExecuteCommand, executeHome, h, hq, setState]
    | ok execID => left; simp [ExecuteCommand, executeHome, h, hq]
  · intro h
    simp [ExecuteCommand, executeStart, h]
  · intro h
    cases hq : eng.executeWorkflow cfg.productionWorkflowID with
    | error e => right; simp [ExecuteCommand, executeStart, h, hq, setState]
    | ok execID => left; simp [ExecuteCommand, executeStart, h, hq]
  · intro h
    simp [ExecuteCommand, executeStop, h]
  · intro h
    cases hq : eng.executeWorkflow cfg.stopWorkflowID with
    | error e => right; simp [ExecuteCommand, executeStop, h, hq, setState]
    | ok execID => left; simp [ExecuteCommand, executeStop, h, hq]
  · intro h1 h2
    simp [ExecuteCommand, executeReset, h1, h2]
  · intro h
    rcases h with h | h <;> simp [ExecuteCommand, executeReset, h]

/-- Witness for C8: home is rejected without state change from ready,
and reset from error clears the error and returns to stopped. -/
theorem claim_C8_machine_command_preconditions_witness :
    ExecuteCommand {} okEngine { currentState := .ready } .home =
      (.error "cannot home: machine must be stopped (current: ready)",
       { currentState := .ready }) ∧
    ExecuteCommand {} okEngine
        { currentState := .error, currentExecID := "E9", errorMessage := "boom" } .reset =
      (.ok (), { currentState := .stopped, currentExecID := "", errorMessage := "" }) := by
  have h1 := claim_C8_machine_command_preconditions {} okEngine { currentState := .ready }
  have h2 := claim_C8_machine_command_preconditions {} okEngine
    { currentState := .error, currentExecID := "E9", errorMessage := "boom" }
  exact ⟨h1.1 (by decide), h2.2.2.2.2.2.2.2 (Or.inl rfl)⟩

/-- C10: the device write converts the numeric address and value
parameters to uint16 by reduction modulo 2^16 of the integer value
before the register write, never rejecting out-of-range or negative
values, and the read operation applies the same truncation to address
and count. -/
theorem claim_C10_uint16_truncation (device : Device) (a v c : Int) :
    executeWrite device
        [("register_type", .str "holding"), ("address", .num a), ("value", .num v)] =
      (device.client.writeSingleRegister ((a % 65536).toNat) ((v % 65536).toNat)).map
        (fun _ =>
          [("success", .bool true),
           ("address", .num (Int.ofNat ((a % 65536).toNat))),
           ("value", .num (Int.ofNat ((v % 65536).toNat)))]) ∧
    executeRead device
        [("register_type", .str "holding"), ("address", .num a), ("count", .num c)] =
      (device.client.readHoldingRegisters ((a % 65536).toNat) ((c % 65536).toNat)).map
        (fun values => [("values", .arr (values.map (fun n => .num (Int.ofNat n))))]) ∧
    executeRead device
        [("register_type", .str "input"), ("address", .num a), ("count", .num c)] =
      (device.client.readInputRegisters ((a % 65536).toNat) ((c % 65536).toNat)).map
        (fun values => [("values", .arr (values.map (fun n => .num (Int.ofNat n))))]) := by
  refine ⟨rfl, rfl, rfl⟩

/-- The character list comparison never holds reflexively. -/
theorem strLtL_irrefl : ∀ l : List Char, strLtL l l = false := by
  intro l
  induction l with
  | nil => rfl
  | cons c rest ih => simp [strLtL, ih]

/-- The character list comparison is asymmetric. -/
theorem strLtL_asymm : ∀ l1 l2 : List Char,
    strLtL l1 l2 = true → strLtL l2 l1 = false := by
  intro l1
  induction l1 with
  | nil =>
    intro l2 h
    cases l2 with
    | nil => exact absurd h (by simp [strLtL])
    | cons b bs => rfl
  | cons a as ih =>
    intro l2 h
    cases l2 with
    | nil => exact absurd h (by simp [strLtL])
    | cons b bs =>
      simp only [strLtL] at h ⊢
      by_cases hab : a.toNat < b.toNat
      · rw [if_neg (by omega : ¬ (b.toNat < a.toNat)), if_pos hab]
      · by_cases hba : b.toNat < a.toNat
        · rw [if_neg hab, if_pos hba] at h
          cases h
        · rw [if_neg hab, if_neg hba] at h
          rw [if_neg hba, if_neg hab]
          exact ih bs h

/-- The character list comparison is transitive. -/
theorem strLtL_trans : ∀ l1 l2 l3 : List Char,
    strLtL l1 l2 = true → strLtL l2 l3 = true → strLtL l1 l3 = true := by
  intro l1
  induction l1 with
  | nil =>
    intro l2 l3 h1 h2
    cases l2 with
    | nil => exact absurd h1 (by simp [strLtL])
    | cons b bs =>
      cases l3 with
      | nil => exact absurd h2 (by simp [strLtL])
      | cons c cs => rfl
  | cons a as ih =>
    intro l2 l3 h1 h2
    cases l2 with
    | nil => exact absurd h1 (by simp [strLtL])
    | cons b bs =>
      cases l3 with
      | nil => exact absurd h2 (by simp [strLtL])
      | cons c cs =>
        simp only [strLtL] at h1 h2 ⊢
        by_cases hab : a.toNat < b.toNat
        · by_cases hbc : b.toNat < c.toNat
          · rw [if_pos (by omega)]
          · by_cases hcb : c.toNat < b.toNat
            · rw [if_neg hbc, if_pos hcb] at h2
              cases h2
            · rw [if_pos (by omega)]
        · by_cases hba : b.toNat < a.toNat
          · rw [if_neg hab, if_pos hba] at h1
            cases h1
          · rw [if_neg hab, if_neg hba] at h1
            by_cases hbc : b.toNat < c.toNat
            · rw [if_pos (by omega)]
            · by_cases hcb : c.toNat < b.toNat
              · rw [if_neg hbc, if_pos hcb] at h2
                cases h2
              · rw [if_neg hbc, if_neg hcb] at h2
                rw [if_neg (by omega), if_neg (by omega)]
                exact ih bs cs h1 h2

/-- String strict order: irreflexive. -/
theorem strLt_irrefl (s : String) : strLt s s = false := strLtL_irrefl s.data

/-- String strict order: asymmetric. -/
theorem strLt_asymm (s t : String) (h : strLt s t = true) : strLt t s = false :=
  strLtL_asymm s.data t.data h

/-- String strict order: transitive. -/
theorem strLt_trans (s t u : String) (h1 : strLt s t = true)
    (h2 : strLt t u = true) : strLt s u = true :=
  strLtL_trans s.data t.data u.data h1 h2

/-- The lexicographic key order behind issueLess, as a proposition. -/
theorem issueLess_iff (a b : Issue) :
    issueLess a b = true ↔
      strLt a.workflowID b.workflowID = true ∨
      (a.workflowID = b.workflowID ∧
        (strLt a.path b.path = true ∨
          (a.path = b.path ∧
            (strLt a.code b.code = true ∨
              (a.code = b.code ∧ strLt a.message b.message = true))))) := by
  unfold issueLess
  split_ifs with h1 h2 h3
  · constructor
    · intro h
      exact Or.inl h
    · intro h
      rcases h with h | ⟨he, _⟩
      · exact h
      · exact absurd he h1
  · push_neg at h1
    constructor
    · intro h
      exact Or.inr ⟨h1, Or.inl h⟩
    · intro h
      rcases h with h | ⟨_, h | ⟨he, _⟩⟩
      · rw [h1] at h
        rw [strLt_irrefl] at h
        cases h
      · exact h
      · exact absurd he h2
  · push_neg at h1 h2
    constructor
    · intro h
      exact Or.inr ⟨h1, Or.inr ⟨h2, Or.inl h⟩⟩
    · intro h
      rcases h with h | ⟨_, h | ⟨_, h | ⟨he, _⟩⟩⟩
      · rw [h1] at h
        rw [strLt_irrefl] at h
        cases h
      · rw [h2] at h
        rw [strLt_irrefl] at h
        cases h
      · exact h
      · exact absurd he h3
  · push_neg at h1 h2 h3
    constructor
    · intro h
      exact Or.inr ⟨h1, Or.inr ⟨h2, Or.inr ⟨h3, h⟩⟩⟩
    · intro h
      rcases h with h | ⟨_, h | ⟨_, h | ⟨_, h⟩⟩⟩
      · rw [h1] at h
        rw [strLt_irrefl] at h
        cases h
      · rw [h2] at h
        rw [strLt_irrefl] at h
        cases h
      · rw [h3] at h
        rw [strLt_irrefl] at h
        cases h
      · exact h

/-- The issue order is asymmetric. -/
theorem issueLess_asymm (a b : Issue) (h : issueLess a b = true) :
    issueLess b a = false := by
  by_contra hc
  have hba : issueLess b a = true := by
    revert hc
    cases issueLess b a <;> simp
  rw [issueLess_iff] at h hba
  rcases h with h | ⟨e1, h⟩
  · rcases hba with hb | ⟨eb, _⟩
    · rw [strLt_asymm _ _ h] at hb
      cases hb
    · rw [eb] at h
      rw [strLt_irrefl] at h
      cases h
  · rcases hba with hb | ⟨eb, hbi⟩
    · rw [e1] at hb
      rw [strLt_irrefl] at hb
      cases hb
    · rcases h with h | ⟨e2, h⟩
      · rcases hbi with hb | ⟨eb2, _⟩
        · rw [strLt_asymm _ _ h] at hb
          cases hb
        · rw [eb2] at h
          rw [strLt_irrefl] at h
          cases h
      · rcases hbi with hb | ⟨eb2, hbi⟩
        · rw [e2] at hb
          rw [strLt_irrefl] at hb
          cases hb
        · rcases h with h | ⟨e3, h⟩
          · rcases hbi with hb | ⟨eb3, _⟩
            · rw [strLt_asymm _ _ h] at hb
              cases hb
            · rw [eb3] at h
              rw [strLt_irrefl] at h
              cases h
          · rcases hbi with hb | ⟨eb3, hbm⟩
            · rw [e3] at hb
              rw [strLt_irrefl] at hb
              cases hb
            · rw [strLt_asymm _ _ h] at hbm
              cases hbm

/-- The issue order is transitive. -/
theorem issueLess_trans (a b c : Issue) (h1 : issueLess a b = true)
    (h2 : issueLess b c = true) : issueLess a c = true := by
  rw [issueLess_iff] at h1 h2 ⊢
  rcases h1 with h1 | ⟨e1, h1⟩
  · rcases h2 with h2 | ⟨e2, _⟩
    · exact Or.inl (strLt_trans _ _ _ h1 h2)
    · rw [e2] at h1
      exact Or.inl h1
  · rcases h2 with h2 | ⟨e2, h2⟩
    · rw [e1]
      exact Or.inl h2
    · refine Or.inr ⟨e1.trans e2, ?_⟩
      rcases h1 with h1 | ⟨f1, h1⟩
      · rcases h2 with h2 | ⟨f2, _⟩
        · exact Or.inl (strLt_trans _ _ _ h1 h2)
        · rw [f2] at h1
          exact Or.inl h1
      · rcases h2 with h2 | ⟨f2, h2⟩
        · rw [f1]
          exact Or.inl h2
        · refine Or.inr ⟨f1.trans f2, ?_⟩
          rcases h1 with h1 | ⟨g1, h1⟩
          · rcases h2 with h2 | ⟨g2, _⟩
            · exact Or.inl (strLt_trans _ _ _ h1 h2)
            · rw [g2] at h1
              exact Or.inl h1
          · rcases h2 with h2 | ⟨g2, h2⟩
            · rw [g1]
              exact Or.inl h2
            · exact Or.inr ⟨g1.trans g2, strLt_trans _ _ _ h1 h2⟩

/-- Members of an insertion are the inserted element or old members. -/
theorem mem_insertIssue (x w : Issue) : ∀ l : List Issue,
    w ∈ insertIssue x l → w = x ∨ w ∈ l := by
  intro l
  induction l with
  | nil =>
    intro h
    simp only [insertIssue, List.mem_singleton] at h
    exact Or.inl h
  | cons y rest ih =>
    intro h
    simp only [insertIssue] at h
    by_cases hxy : issueLess x y = true
    · rw [if_pos hxy] at h
      rcases List.mem_cons.mp h with h | h
      · exact Or.inl h
      · exact Or.inr h
    · rw [if_neg hxy] at h
      rcases List.mem_cons.mp h with h | h
      · exact Or.inr (by simp [h])
      · rcases ih h with h | h
        · exact Or.inl h
        · exact Or.inr (List.mem_cons_of_mem _ h)

/-- Insertion preserves sortedness of the issue list. -/
theorem insertIssue_sorted (x : Issue) : ∀ l : List Issue,
    l.Pairwise (fun u v => issueLess v u = false) →
    (insertIssue x l).Pairwise (fun u v => issueLess v u = false) := by
  intro l
  induction l with
  | nil =>
    intro _
    simp [insertIssue]
  | cons y rest ih =>
    intro h
    rw [List.pairwise_cons] at h
    obtain ⟨hy, hrest⟩ := h
    simp only [insertIssue]
    by_cases hxy : issueLess x y = true
    · rw [if_pos hxy]
      rw [List.pairwise_cons]
      constructor
      · intro z hz
        rcases List.mem_cons.mp hz with hz | hz
        · rw [hz]
          exact issueLess_asymm _ _ hxy
        · by_contra hc
          have hzx : issueLess z x = true := by
            revert hc
            cases issueLess z x <;> simp
          have hzy : issueLess z y = true := issueLess_trans _ _ _ hzx hxy
          rw [hy z hz] at hzy
          cases hzy
      · rw [List.pairwise_cons]
        exact ⟨hy, hrest⟩
    · rw [if_neg hxy]
      rw [List.pairwise_cons]
      constructor
      · intro w hw
        rcases mem_insertIssue x w rest hw with hw | hw
        · rw [hw]
          revert hxy
          cases issueLess x y <;> simp
        · exact hy w hw
      · exact ih hrest

/-- The stable insertion sort of the validator produces a sorted
list. -/
theorem sortIssues_sorted (l : List Issue) :
    (sortIssues l).Pairwise (fun u v => issueLess v u = false) := by
  have hgen : ∀ (l2 : List Issue) (acc : List Issue),
      acc.Pairwise (fun u v => issueLess v u = false) →
      (l2.foldl (fun acc2 x => insertIssue x acc2) acc).Pairwise
        (fun u v => issueLess v u = false) := by
    intro l2
    induction l2 with
    | nil =>
      intro acc h
      exact h
    | cons x rest ih =>
      intro acc h
      exact ih _ (insertIssue_sorted x acc h)
  exact hgen l [] (by simp)

/-- C5 counterexample: the workflow A whose two steps both reference A
itself is a graph with a cycle reachable from the validated root, yet
the validator emits TWO WORKFLOW_050 errors (one per cycle closing
reference), refuting the claim that exactly one is emitted for every
cyclic graph. -/
theorem claim_C5_two_cycle_errors_cex :
    ValidateByID storeAA 9 "A" = .ok repAA ∧
    (repAA.errors.filter (fun i => i.code == "WORKFLOW_050")).length = 2 := by
  exact ⟨rfl, rfl⟩

/-- C5 amended: the validator emits one WORKFLOW_050 error per
workflow step whose referenced id is currently on the traversal path,
with meta.cycle the id path from the first occurrence of the target on
the stack followed by the target again: validating A in the graph A
referencing B referencing A yields exactly one WORKFLOW_050 whose
meta.cycle is [A, B, A] (and an invalid report), while the graph whose
cycle is closed by two references of A to itself yields two such
errors, each with meta.cycle [A, A]. -/
theorem claim_C5_one_error_per_cycle_closing_reference :
    (ValidateByID storeAB 9 "A" = .ok repAB ∧
      repAB.errors.map (fun i => (i.code, lookupJ i.meta "cycle")) =
        [("WORKFLOW_050",
          some (JValue.arr [JValue.str "A", JValue.str "B", JValue.str "A"]))] ∧
      repAB.valid = false) ∧
    (ValidateByID storeAA 9 "A" = .ok repAA ∧
      repAA.errors.map (fun i => (i.code, lookupJ i.meta "cycle")) =
        [("WORKFLOW_050", some (JValue.arr [JValue.str "A", JValue.str "A"])),
         ("WORKFLOW_050", some (JValue.arr [JValue.str "A", JValue.str "A"]))] ∧
      repAA.valid = false) := by
  exact ⟨⟨rfl, rfl, rfl⟩, ⟨rfl, rfl, rfl⟩⟩

/-- C6: every report the validator hands back has both its error list
and its warning list sorted by the key (workflow id, path, code,
message), its valid flag is true exactly when the error list is empty,
and validating the same static graph again yields the identical
report. -/
theorem claim_C6_reports_sorted_and_valid_iff (store : VStore) (fuel : Nat)
    (wid : String) (rep : Report)
    (h : ValidateByID store fuel wid = .ok rep) :
    rep.errors.Pairwise (fun u v => issueLess v u = false) ∧
    rep.warnings.Pairwise (fun u v => issueLess v u = false) ∧
    (rep.valid = true ↔ rep.errors = []) ∧
    ValidateByID store fuel wid = ValidateByID store fuel wid := by
  have hfin : ∃ r0, rep = finalize r0 := by
    unfold ValidateByID at h
    cases hL : store.wfLoad wid with
    | error e =>
      rw [hL] at h
      cases h
    | ok pr =>
      cases pr with
      | error pe =>
        rw [hL] at h
        exact ⟨_, (Except.ok.inj h).symm⟩
      | ok d =>
        rw [hL] at h
        exact ⟨_, (Except.ok.inj h).symm⟩
  obtain ⟨r0, rfl⟩ := hfin
  refine ⟨sortIssues_sorted _, sortIssues_sorted _, ?_, rfl⟩
  simp [finalize, List.length_eq_zero]

/-- Witness for C6 at the concrete two workflow cycle report. -/
theorem claim_C6_reports_sorted_and_valid_iff_witness :
    repAB.errors.Pairwise (fun u v => issueLess v u = false) ∧
    (repAB.valid = true ↔ repAB.errors = []) := by
  have h := claim_C6_reports_sorted_and_valid_iff storeAB 9 "A" repAB rfl
  exact ⟨h.1, h.2.2.1⟩

/-- C1 counterexample: in the two step run, the first step succeeds
with the write result as its output, yet the second step record is
created with the ORIGINAL execution input, not that output, and the
execution row finishes with status success and an unset output field —
refuting both the threading and the persisted final output of the
claim at this concrete workflow. -/
theorem claim_C1_output_threading_cex :
    traceTwo.steps.map (fun r => r.input) = [inputX, inputX] ∧
    traceTwo.steps.map (fun r => r.output) =
      [some [("success", JValue.bool true), ("address", JValue.num 1),
             ("value", JValue.num 5)],
       some inputX] ∧
    (some [("success", JValue.bool true), ("address", JValue.num 1),
           ("value", JValue.num 5)] : Option JObj) ≠ some inputX ∧
    traceTwo.exec.status = .success ∧
    traceTwo.exec.output = none := by
  refine ⟨rfl, rfl, ?_, rfl, rfl⟩
  intro h
  have hlen := congrArg (fun o => (Option.map List.length o).getD 0) h
  simp [inputX] at hlen

/-- C1 amended: the runner invokes EVERY step with the original
execution input (the step output of executeStep is discarded), and on
an all-success run the execution row is persisted with status success
while its output field is never set. -/
theorem claim_C1_steps_get_original_input (fuel : Nat)
    (storage : String → Option Workflow) (deviceManager : String → Option Device)
    (cancelAt ctxInStep : Nat → Bool) (wf : Workflow) (input : JObj)
    (res : RunState)
    (hres : res = runExecution fuel storage deviceManager cancelAt ctxInStep wf input) :
    (∀ r ∈ res.steps, r.input = input) ∧
    res.exec.output = none ∧
    ((∀ j, cancelAt j = false) →
      (∀ k (hk : k < wf.steps.length),
        ∃ out, Execute fuel storage deviceManager (ctxInStep k)
          (wf.steps.get ⟨k, hk⟩) input = .ok out) →
      res.exec.status = .success) := by
  simp only [runExecution] at hres
  obtain ⟨tail, evtail, wstail, curNew, h1, h2, h3, h4, h5, h6, h7, h8, h9,
    h10, h11, h12, h13⟩ :=
    runSteps_spec fuel storage deviceManager cancelAt ctxInStep input
      wf.steps 0 _ wf.id wf.programName "0" res rfl hres
  have hsteps : res.steps = tail := by simpa using h2
  refine ⟨?_, by simpa using h6, ?_⟩
  · intro r hr
    rw [hsteps] at hr
    obtain ⟨⟨k, hk⟩, rfl⟩ := List.mem_iff_get.mp hr
    obtain ⟨hk2, _, _, hinp, _⟩ := h9 k hk
    exact hinp
  · intro hnc hok
    refine h13 hnc ?_
    intro k hk
    obtain ⟨o, ho⟩ := hok k hk
    exact ⟨o, by simpa using ho⟩

/-- Witness for the amended C1 at the one step wait workflow. -/
theorem claim_C1_steps_get_original_input_witness :
    traceOne.exec.output = none ∧ traceOne.exec.status = .success := by
  have h := claim_C1_steps_get_original_input 9 noWorkflows devMgr1 noCancel noCancel
    wfOne inputX traceOne rfl
  refine ⟨h.2.1, h.2.2 (fun _ => rfl) ?_⟩
  intro k hk
  have hk0 : k = 0 := by
    have : k < 1 := by simpa [wfOne] using hk
    omega
  subst hk0
  exact ⟨inputX, rfl⟩

/-- C2 counterexample: the one step successful run publishes exactly
the two step events through the event store and streamer — no
execution.started when the execution turns running, and no terminal
execution event at all — refuting the claim at this concrete run. -/
theorem claim_C2_no_execution_events_cex :
    traceOne.events.map (fun e => e.eventType) = ["step.started", "step.completed"] ∧
    "execution.started" ∉ traceOne.events.map (fun e => e.eventType) ∧
    "execution.completed" ∉ traceOne.events.map (fun e => e.eventType) ∧
    "execution.failed" ∉ traceOne.events.map (fun e => e.eventType) ∧
    "execution.cancelled" ∉ traceOne.events.map (fun e => e.eventType) := by
  refine ⟨rfl, ?_, ?_, ?_, ?_⟩ <;> decide

/-- C2 amended: the runner never publishes execution lifecycle events
through the event store and streamer — every published event is one of
step.started, step.completed, step.failed — and the terminal outcome
is announced exactly once per run, but only as a websocket broadcast
(the source helpers that would publish execution.failed and
execution.cancelled are never called). -/
theorem claim_C2_only_step_events (fuel : Nat)
    (storage : String → Option Workflow) (deviceManager : String → Option Device)
    (cancelAt ctxInStep : Nat → Bool) (wf : Workflow) (input : JObj)
    (res : RunState)
    (hres : res = runExecution fuel storage deviceManager cancelAt ctxInStep wf input) :
    (∀ e ∈ res.events,
      e.eventType = "step.started" ∨ e.eventType = "step.completed" ∨
        e.eventType = "step.failed") ∧
    (res.ws.filter isTerminalWs).length = 1 := by
  simp only [runExecution] at hres
  obtain ⟨tail, evtail, wstail, curNew, h1, h2, h3, h4, h5, h6, h7, h8, h9,
    h10, h11, h12, h13⟩ :=
    runSteps_spec fuel storage deviceManager cancelAt ctxInStep input
      wf.steps 0 _ wf.id wf.programName "0" res rfl hres
  constructor
  · intro e he
    rw [show res.events = evtail from by simpa using h3] at he
    rcases h10 e he with ⟨h, _⟩ | ⟨h, _⟩ | ⟨h, _⟩
    · exact Or.inl h
    · exact Or.inr (Or.inl h)
    · exact Or.inr (Or.inr h)
  · rw [show res.ws = wsRunStarted :: wstail from by simpa using h4]
    simpa [List.filter_cons, show isTerminalWs wsRunStarted = false from rfl]
      using h11

/-- Witness for the amended C2 at the one step wait workflow. -/
theorem claim_C2_only_step_events_witness :
    (traceOne.ws.filter isTerminalWs).length = 1 := by
  have h := claim_C2_only_step_events 9 noWorkflows devMgr1 noCancel noCancel
    wfOne inputX traceOne rfl
  exact h.2

/-- C3 counterexample: in the run whose only step names an absent
device, the step record carries the error message and status failed,
the execution row ends failed — but the error field of the execution
row stays empty, refuting the claim that the message is persisted on
both records. -/
theorem claim_C3_exec_error_not_persisted_cex :
    traceBad.exec.status = .failed ∧
    traceBad.exec.error = "" ∧
    traceBad.steps.map (fun r => r.error) = ["device not found: DX"] ∧
    traceBad.steps.map (fun r => r.status) = [.failed] := by
  exact ⟨rfl, rfl, rfl, rfl⟩

/-- C3 amended: whenever the step executor fails a step — at ANY
position k, after k successful steps and with no cancellation up to
that iteration — with message e, the runner terminates the execution
with status failed and persists e on the step record of that step (the
last record, at step index k), but the execution row error field is
left empty (the source helper handleStepError, which would copy it, is
never called). -/
theorem claim_C3_error_persisted_on_step_only (fuel : Nat)
    (storage : String → Option Workflow) (deviceManager : String → Option Device)
    (cancelAt ctxInStep : Nat → Bool) (wf : Workflow) (input : JObj)
    (k : Nat) (e : String) (res : RunState)
    (hres : res = runExecution fuel storage deviceManager cancelAt ctxInStep wf input)
    (hnc : ∀ j, j ≤ k → cancelAt j = false)
    (hk : k < wf.steps.length)
    (hpre : ∀ j (hj : j < k), ∃ out,
      Execute fuel storage deviceManager (ctxInStep j)
        (wf.steps.get ⟨j, Nat.lt_trans hj hk⟩) input = .ok out)
    (hexec : Execute fuel storage deviceManager (ctxInStep k)
      (wf.steps.get ⟨k, hk⟩) input = .error e) :
    res.exec.status = .failed ∧
    res.exec.error = "" ∧
    res.steps.length = k + 1 ∧
    ∃ rec, res.steps.getLast? = some rec ∧
      rec.status = .failed ∧ rec.error = e ∧ rec.stepIndex = k := by
  simp only [runExecution] at hres
  obtain ⟨hs, he, hlen, rec, hlast, hf1, hf2, hf3⟩ :=
    runSteps_fail_at fuel storage deviceManager cancelAt ctxInStep input
      wf.steps k 0 _ wf.id wf.programName "0" e res rfl hres
      (by
        intro j hj
        rw [Nat.zero_add]
        exact hnc j hj)
      hk
      (by
        intro j hj
        obtain ⟨o, ho⟩ := hpre j hj
        refine ⟨o, ?_⟩
        rw [Nat.zero_add]
        exact ho)
      (by
        rw [Nat.zero_add]
        exact hexec)
  refine ⟨hs, he, ?_, rec, hlast, hf1, hf2, hf3.trans (Nat.zero_add k)⟩
  simpa using hlen

/-- Witness for the amended C3 at the workflow whose SECOND step names
the absent device: the run fails at index 1 with the message persisted
on the last step record while the execution error stays empty. -/
theorem claim_C3_error_persisted_on_step_only_witness :
    traceLateBad.exec.status = .failed ∧
    traceLateBad.exec.error = "" ∧
    traceLateBad.steps.length = 2 := by
  have h := claim_C3_error_persisted_on_step_only 9 noWorkflows devMgr1
    noCancel noCancel wfLateBad inputX 1 "device not found: DX" traceLateBad rfl
    (fun _ _ => rfl) (by decide)
    (by
      intro j hj
      have hj0 : j = 0 := by omega
      subst hj0
      exact ⟨inputX, rfl⟩)
    rfl
  exact ⟨h.1, h.2.1, h.2.2.1⟩

/-- C4 counterexample: in the successful run the step.started payload
carries depth, but the step.completed payload has no depth key, and in
the failing run the step.failed payload has no depth key either —
refuting the claim that all three step events carry depth. -/
theorem claim_C4_depth_missing_cex :
    traceOne.events.map (fun e => (e.eventType, lookupJ e.payload "depth")) =
      [("step.started", some (JValue.num 1)), ("step.completed", none)] ∧
    traceBad.events.map (fun e => (e.eventType, lookupJ e.payload "depth")) =
      [("step.started", some (JValue.num 1)), ("step.failed", none)] := by
  exact ⟨rfl, rfl⟩

/-- C4 amended: every step.started event carries exactly the keys
step_index, step_name, hierarchical_step_id and depth; every
step.completed event carries step_index, step_name,
hierarchical_step_id and output (no depth); every step.failed event
carries step_index, step_name, hierarchical_step_id and error (no
depth). -/
theorem claim_C4_step_event_payload_shapes (fuel : Nat)
    (storage : String → Option Workflow) (deviceManager : String → Option Device)
    (cancelAt ctxInStep : Nat → Bool) (wf : Workflow) (input : JObj)
    (res : RunState)
    (hres : res = runExecution fuel storage deviceManager cancelAt ctxInStep wf input) :
    ∀ e ∈ res.events,
      (e.eventType = "step.started" →
        keysJ e.payload = ["step_index", "step_name", "hierarchical_step_id", "depth"]) ∧
      (e.eventType = "step.completed" →
        keysJ e.payload = ["step_index", "step_name", "hierarchical_step_id", "output"]) ∧
      (e.eventType = "step.failed" →
        keysJ e.payload = ["step_index", "step_name", "hierarchical_step_id", "error"]) := by
  simp only [runExecution] at hres
  obtain ⟨tail, evtail, wstail, curNew, h1, h2, h3, h4, h5, h6, h7, h8, h9,
    h10, h11, h12, h13⟩ :=
    runSteps_spec fuel storage deviceManager cancelAt ctxInStep input
      wf.steps 0 _ wf.id wf.programName "0" res rfl hres
  intro e he
  rw [show res.events = evtail from by simpa using h3] at he
  rcases h10 e he with ⟨ht, hkeys⟩ | ⟨ht, hkeys⟩ | ⟨ht, hkeys⟩ <;>
    refine ⟨?_, ?_, ?_⟩ <;> intro ht2 <;>
    first
      | exact hkeys
      | exact absurd (ht ▸ ht2) (by decide)

/-- Witness for the amended C4 at the one step wait workflow. -/
theorem claim_C4_step_event_payload_shapes_witness :
    keysJ ((startedEvent 0 "pause" "main:S20" 1).payload) =
      ["step_index", "step_name", "hierarchical_step_id", "depth"] := by
  have h := claim_C4_step_event_payload_shapes 9 noWorkflows devMgr1 noCancel noCancel
    wfOne inputX traceOne rfl
  refine (h (startedEvent 0 "pause" "main:S20" 1) ?_).1 rfl
  have hev : traceOne.events =
      [startedEvent 0 "pause" "main:S20" 1,
       completedEvent 0 "pause" "main:S20" inputX] := rfl
  rw [hev]
  exact List.mem_cons_self _ _

/-- C9: every persisted step record of a run has depth 1 and
hierarchical step id equal to the root program name, then ":S", then
the number of the corresponding top level step, the record at position
k belonging to top level step k; the tracker keeps a single frame for
the whole run (the step executor, whose signature touches neither the
tracker nor the step records, performs sub-workflow expansion
internally, so inner steps produce no persisted records). -/
theorem claim_C9_flat_hierarchical_records (fuel : Nat)
    (storage : String → Option Workflow) (deviceManager : String → Option Device)
    (cancelAt ctxInStep : Nat → Bool) (wf : Workflow) (input : JObj)
    (res : RunState)
    (hres : res = runExecution fuel storage deviceManager cancelAt ctxInStep wf input) :
    (∀ k (hk : k < res.steps.length),
      ∃ (hk2 : k < wf.steps.length),
        (res.steps.get ⟨k, hk⟩).stepIndex = k ∧
        (res.steps.get ⟨k, hk⟩).depth = 1 ∧
        (res.steps.get ⟨k, hk⟩).hierarchicalStepID =
          wf.programName ++ ":S" ++ (wf.steps.get ⟨k, hk2⟩).number) ∧
    (∃ curNew, res.tracker =
      [{ workflowID := wf.id, programName := wf.programName, stepNumber := curNew }]) := by
  simp only [runExecution] at hres
  obtain ⟨tail, evtail, wstail, curNew, h1, h2, h3, h4, h5, h6, h7, h8, h9,
    h10, h11, h12, h13⟩ :=
    runSteps_spec fuel storage deviceManager cancelAt ctxInStep input
      wf.steps 0 _ wf.id wf.programName "0" res rfl hres
  have hsteps : res.steps = tail := by simpa using h2
  constructor
  · intro k hk
    have hk3 : k < tail.length := hsteps ▸ hk
    obtain ⟨hk2, hidx, hdep, _, hhid⟩ := h9 k hk3
    have hget : res.steps.get ⟨k, hk⟩ = tail.get ⟨k, hk3⟩ := List.get_of_eq hsteps _
    refine ⟨hk2, ?_, ?_, ?_⟩
    · rw [hget]
      exact hidx.trans (Nat.zero_add k)
    · rw [hget]
      exact hdep
    · rw [hget]
      exact hhid
  · exact ⟨curNew, h1⟩

/-- Witness for C9 at the two step workflow: the first record has
depth 1 and hierarchical id main:S10. -/
theorem claim_C9_flat_hierarchical_records_witness :
    (traceTwo.steps.get ⟨0, by decide⟩).depth = 1 ∧
    (traceTwo.steps.get ⟨0, by decide⟩).hierarchicalStepID = "main" ++ ":S" ++ "10" := by
  have h := claim_C9_flat_hierarchical_records 9 noWorkflows devMgr1 noCancel noCancel
    wfTwo inputX traceTwo rfl
  obtain ⟨hk2, _, hdep, hhid⟩ := h.1 0 (by decide)
  exact ⟨hdep, hhid⟩

end Theorems

end OMC
